import Mathlib

/-!
Shallow embedding of the AI service layer of the axiom-boilerplate backend:
the two vector-store backends (`QdrantVectorStore`, `WeaviateVectorStore`),
the embedding client (`VoyageClient.embed_batch`), and the orchestration
chains (`RAGChain.run`, `EmbeddingChain.run`).

Modelling conventions:
- Python floats are modelled as rationals (`ℚ`); vectors as `List ℚ`.
- JSON-serializable metadata values are modelled by `JsonVal`; a metadata
  dict is an association list `List (String × JsonVal)`.
- Remote calls are modelled by passing the remote response in explicitly
  (as an `Except PyErr _` value or a response function) and recording the
  sequence of issued backend calls as a trace (`List WvCall` / `List QCall`).
- Python exceptions are the `PyErr` type; `raise` is `Except.error`.
- `uuid4()` id generation is modelled by an explicit supply of fresh ids.
-/

/-- A JSON-serializable metadata value (Python dynamic value). -/
inductive JsonVal where
  | jnull
  | jbool (b : Bool)
  | jnum (q : ℚ)
  | jstr (s : String)
  deriving DecidableEq, Repr

/-- A metadata dict: association list from string keys to JSON values. -/
abbrev Metadata := List (String × JsonVal)

/-- Look up a key in a metadata dict (Python `dict.get`). -/
def metaGet (m : Metadata) (k : String) : Option JsonVal :=
  (m.find? (fun p => p.1 = k)).map (·.2)

/-- An embedding vector (Python `List[float]`). -/
abbrev Vec := List ℚ

/-- Python exceptions raised by the service layer. -/
inductive PyErr where
  | valueError (msg : String)
  | runtimeError (msg : String)
  | httpError (status : Nat)
  | transportError (msg : String)
  | keyError (k : String)
  | typeError
  deriving DecidableEq, Repr

/-- The message of `_validate_dimension`'s ValueError. -/
def dimErrorMsg (expected got : Nat) : String :=
  "Invalid embedding dimension: expected " ++ toString expected ++ ", got " ++ toString got

/-- The message of the batch length-mismatch ValueError. -/
def lenErrorMsg : String :=
  "Vectors and metadata lists must have same length"

/-! ## Qdrant backend (`qdrant_client.py`) -/

/-- Configuration of `QdrantVectorStore` (`__init__`). -/
structure QdrantConfig where
  collection_name : String
  vector_dimension : Nat
  deriving DecidableEq, Repr

/-- A point sent to the Qdrant backend (`PointStruct`). -/
structure QPoint where
  id : String
  vector : Vec
  payload : Metadata
  deriving DecidableEq, Repr

/-- A hit returned by the Qdrant backend's `search` call. -/
structure QHit where
  id : String
  score : ℚ
  payload : Metadata
  deriving DecidableEq, Repr

/-- A network call issued by `QdrantVectorStore` to the Qdrant backend. -/
inductive QCall where
  | getCollections
  | createCollection (name : String) (size : Nat)
  | upsert (collection : String) (points : List QPoint)
  | search (collection : String) (query_vector : Vec) (limit : Nat) (score_threshold : ℚ)
  | delete (collection : String) (id : String)
  deriving DecidableEq, Repr

namespace QdrantVectorStore

/-- Model of `QdrantVectorStore.ensure_collection`: list collections, create ours if absent.
`collectionsResp` and `createResp` are the backend's responses. -/
def ensure_collection (cfg : QdrantConfig)
    (collectionsResp : Except PyErr (List String)) (createResp : Except PyErr Unit) :
    List QCall × Except PyErr Unit :=
  match collectionsResp with
  | .error e => ([.getCollections], .error e)
  | .ok names =>
    if cfg.collection_name ∈ names then
      ([.getCollections], .ok ())
    else
      ([.getCollections, .createCollection cfg.collection_name cfg.vector_dimension],
        createResp)

/-- Model of `QdrantVectorStore.store_embedding`: build one `PointStruct` and upsert it.
No dimension validation and no collection provisioning occur here.
`upsertResp` is the backend's response to the upsert; `freshId` models `uuid4()`. -/
def store_embedding (cfg : QdrantConfig) (upsertResp : Except PyErr Unit)
    (vector : Vec) (metadata : Metadata) (point_id : Option String) (freshId : String) :
    List QCall × Except PyErr String :=
  let pid := point_id.getD freshId
  ([.upsert cfg.collection_name [⟨pid, vector, metadata⟩]],
    match upsertResp with
    | .ok _ => .ok pid
    | .error e => .error e)

/-- Model of `QdrantVectorStore.store_batch`: length check, then one upsert of all points.
`freshIds` models the successive `uuid4()` draws. -/
def store_batch (cfg : QdrantConfig) (upsertResp : Except PyErr Unit)
    (vectors : List Vec) (metadata_list : List Metadata) (freshIds : Nat → String) :
    List QCall × Except PyErr (List String) :=
  if vectors.length ≠ metadata_list.length then
    ([], .error (.valueError lenErrorMsg))
  else
    let pairs := vectors.zip metadata_list
    let points := ((List.range pairs.length).zip pairs).map
      (fun ip => (⟨freshIds ip.1, ip.2.1, ip.2.2⟩ : QPoint))
    let point_ids := points.map (·.id)
    ([.upsert cfg.collection_name points],
      match upsertResp with
      | .ok _ => .ok point_ids
      | .error e => .error e)

/-- A formatted search result (`{"id": ..., "score": ..., "metadata": ...}`). -/
structure QResult where
  id : String
  score : ℚ
  metadata : Metadata
  deriving DecidableEq, Repr

/-- Formatting of one Qdrant hit in `search_similar`. -/
def formatHit (h : QHit) : QResult :=
  ⟨h.id, h.score, h.payload⟩

/-- Model of `QdrantVectorStore.search_similar`: delegate to the backend `search` call
(passing `limit` and `score_threshold` through) and format the hits.
No dimension validation and no collection provisioning occur here. -/
def search_similar (cfg : QdrantConfig) (searchResp : Except PyErr (List QHit))
    (query_vector : Vec) (limit : Nat) (score_threshold : ℚ) :
    List QCall × Except PyErr (List QResult) :=
  ([.search cfg.collection_name query_vector limit score_threshold],
    match searchResp with
    | .ok hits => .ok (hits.map formatHit)
    | .error e => .error e)

/-- Model of `QdrantVectorStore.delete_by_id`: issue the delete; return `True` whenever
the backend call succeeds, and catch any exception, returning `False`. -/
def delete_by_id (cfg : QdrantConfig) (deleteResp : Except PyErr Unit)
    (point_id : String) : List QCall × Except PyErr Bool :=
  ([.delete cfg.collection_name point_id],
    match deleteResp with
    | .ok _ => .ok true
    | .error _ => .ok false)

end QdrantVectorStore

/-! ## Weaviate backend (`weaviate_client.py`) -/

/-- Configuration of `WeaviateVectorStore` (`__init__`). -/
structure WvConfig where
  class_name : String
  vector_dimension : Nat
  deriving DecidableEq, Repr

/-- The mutable state of a `WeaviateVectorStore` instance (`self._class_ready`). -/
structure WvState where
  class_ready : Bool
  deriving DecidableEq, Repr

/-- A network call issued by `WeaviateVectorStore` to the Weaviate backend. -/
inductive WvCall where
  | getSchema
  | createClass (name : String)
  | postObject (class_name : String) (id : String) (vector : Vec) (metadata : Metadata)
  | postBatch (class_name : String) (objects : List (String × Vec × Metadata))
  | graphqlSearch (class_name : String) (vector : Vec) (limit : Nat)
  | deleteObject (id : String)
  deriving DecidableEq, Repr

/-- Backend responses consumed by `ensure_collection`:
the `GET /v1/schema` result and the `POST /v1/schema` (class creation) result. -/
structure WvEnsureEnv where
  schemaClasses : Except PyErr (List String)
  createResp : Except PyErr Unit
  deriving Repr

/-- A Python dynamic value, standing both for the stored `metadata_json`
property as returned by GraphQL and for the result of `json.loads`: a string,
a dict, or any other value (list, number, bool, None, ...). -/
inductive PyVal where
  | vstr (s : String)
  | vdict (m : Metadata)
  | vother
  deriving DecidableEq, Repr

/-- Python `isinstance(v, dict)`. -/
def PyVal.isDict : PyVal → Bool
  | .vdict _ => true
  | _ => false

/-- One hit of the GraphQL `nearVector` query (`metadata_json` plus
`_additional { id certainty distance }`). `metadata_json = none` models an
absent property (Python `result.get("metadata_json", "{}")` default). -/
structure WvHit where
  id : Option String
  metadata_json : Option PyVal
  certainty : Option ℚ
  distance : Option ℚ
  deriving DecidableEq, Repr

namespace WeaviateVectorStore

/-- Model of `WeaviateVectorStore._validate_dimension`. -/
def validate_dimension (cfg : WvConfig) (vector : Vec) : Except PyErr Unit :=
  if vector.length ≠ cfg.vector_dimension then
    .error (.valueError (dimErrorMsg cfg.vector_dimension vector.length))
  else
    .ok ()

/-- Model of `WeaviateVectorStore.ensure_collection`: `GET /v1/schema`, then create the
class when it is not listed. -/
def ensure_collection (cfg : WvConfig) (env : WvEnsureEnv) :
    List WvCall × Except PyErr Unit :=
  match env.schemaClasses with
  | .error e => ([.getSchema], .error e)
  | .ok names =>
    if cfg.class_name ∈ names then
      ([.getSchema], .ok ())
    else
      ([.getSchema, .createClass cfg.class_name], env.createResp)

/-- Model of `WeaviateVectorStore._ensure_collection_once` in an uncontended (sequential)
run: fast-path check of `_class_ready`, then provision and set the flag.
Returns the updated state, the issued calls, and the outcome. -/
def ensure_collection_once (cfg : WvConfig) (st : WvState) (env : WvEnsureEnv) :
    WvState × List WvCall × Except PyErr Unit :=
  if st.class_ready then
    (st, [], .ok ())
  else
    match ensure_collection cfg env with
    | (tr, .ok _) => (⟨true⟩, tr, .ok ())
    | (tr, .error e) => (st, tr, .error e)

/-- Model of `WeaviateVectorStore.store_embedding`: ensure collection, validate the
dimension, then `POST /v1/objects`. -/
def store_embedding (cfg : WvConfig) (st : WvState) (env : WvEnsureEnv)
    (postResp : Except PyErr Unit) (vector : Vec) (metadata : Metadata)
    (point_id : Option String) (freshId : String) :
    WvState × List WvCall × Except PyErr String :=
  match ensure_collection_once cfg st env with
  | (st', tr, .error e) => (st', tr, .error e)
  | (st', tr, .ok _) =>
    match validate_dimension cfg vector with
    | .error e => (st', tr, .error e)
    | .ok _ =>
      let pid := point_id.getD freshId
      (st', tr ++ [.postObject cfg.class_name pid vector metadata],
        match postResp with
        | .ok _ => .ok pid
        | .error e => .error e)

/-- The per-object error lists of a Weaviate batch response
(`item["result"]["errors"]["error"]` for each returned object), together with
the top-level `errors` field. -/
structure WvBatchResp where
  errors : Option String
  objectErrors : List (List String)
  deriving DecidableEq, Repr

/-- Validate every vector of a batch in order, as the `store_batch` loop does,
returning the first dimension error. -/
def validate_all (cfg : WvConfig) (vectors : List Vec) : Except PyErr Unit :=
  match vectors with
  | [] => .ok ()
  | v :: rest =>
    match validate_dimension cfg v with
    | .error e => .error e
    | .ok _ => validate_all cfg rest

/-- Model of `WeaviateVectorStore.store_batch`: ensure collection, length check,
per-vector dimension validation while building the objects, one
`POST /v1/batch/objects`, then check the top-level and per-object errors. -/
def store_batch (cfg : WvConfig) (st : WvState) (env : WvEnsureEnv)
    (batchResp : Except PyErr WeaviateVectorStore.WvBatchResp) (vectors : List Vec)
    (metadata_list : List Metadata) (freshIds : Nat → String) :
    WvState × List WvCall × Except PyErr (List String) :=
  match ensure_collection_once cfg st env with
  | (st', tr, .error e) => (st', tr, .error e)
  | (st', tr, .ok _) =>
    if vectors.length ≠ metadata_list.length then
      (st', tr, .error (.valueError lenErrorMsg))
    else
      match validate_all cfg vectors with
      | .error e => (st', tr, .error e)
      | .ok _ =>
        let pairs := vectors.zip metadata_list
        let objects := ((List.range pairs.length).zip pairs).map
          (fun ip => (freshIds ip.1, ip.2.1, ip.2.2))
        let point_ids := objects.map (·.1)
        (st', tr ++ [.postBatch cfg.class_name objects],
          match batchResp with
          | .error e => .error e
          | .ok resp =>
            match resp.errors with
            | some msg => .error (.runtimeError msg)
            | none =>
              if resp.objectErrors.any (fun l => ¬ l.isEmpty) then
                .error (.runtimeError "batch object errors")
              else
                .ok point_ids)

/-- The score normalization of `search_similar`: the calibrated `certainty`
when present, otherwise `max(0.0, 1.0 - distance)` with `distance`
defaulting to `1.0`. -/
def scoreOf (h : WvHit) : ℚ :=
  match h.certainty with
  | some c => c
  | none => max 0 (1 - h.distance.getD 1)

/-- The metadata normalization of `search_similar`: parse a string with
`json.loads` (modelled by `parse`, whose successful result is an arbitrary
loaded value — a dict only when the JSON document is an object), falling back
to `{"raw_metadata": raw}` on `JSONDecodeError` (`parse` returns `none`); keep
a dict as is; anything else becomes the empty dict. A successfully loaded
non-object value is assigned to `metadata` unchanged. -/
def formatMeta (parse : String → Option PyVal) (raw : Option PyVal) : PyVal :=
  match raw.getD (.vstr "{}") with
  | .vstr s =>
    match parse s with
    | some v => v
    | none => .vdict [("raw_metadata", .jstr s)]
  | .vdict m => .vdict m
  | .vother => .vdict []

/-- A formatted Weaviate search result; `metadata` is whatever Python value
the normalization produced (a dict in all fallback branches, but the
pass-through of loaded JSON can put any value here). -/
structure WvResult where
  id : Option String
  score : ℚ
  metadata : PyVal
  deriving DecidableEq, Repr

/-- Formatting plus threshold filtering of the GraphQL hits, in hit order. -/
def formatResults (parse : String → Option PyVal) (score_threshold : ℚ)
    (hits : List WvHit) : List WvResult :=
  (hits.filter (fun h => score_threshold ≤ scoreOf h)).map
    (fun h => ⟨h.id, scoreOf h, formatMeta parse h.metadata_json⟩)

/-- Model of `WeaviateVectorStore.search_similar`: ensure collection, validate the query
vector's dimension, run the GraphQL `nearVector` query with `limit`, then
normalize scores and metadata and keep only hits with `score >= score_threshold`. -/
def search_similar (cfg : WvConfig) (st : WvState) (env : WvEnsureEnv)
    (searchResp : Except PyErr (List WvHit)) (parse : String → Option PyVal)
    (query_vector : Vec) (limit : Nat) (score_threshold : ℚ) :
    WvState × List WvCall × Except PyErr (List WvResult) :=
  match ensure_collection_once cfg st env with
  | (st', tr, .error e) => (st', tr, .error e)
  | (st', tr, .ok _) =>
    match validate_dimension cfg query_vector with
    | .error e => (st', tr, .error e)
    | .ok _ =>
      (st', tr ++ [.graphqlSearch cfg.class_name query_vector limit],
        match searchResp with
        | .error e => .error e
        | .ok hits => .ok (formatResults parse score_threshold hits))

/-- Model of `WeaviateVectorStore.delete_by_id`: ensure collection, `DELETE` the object,
map 200/204 to `True` and 404 to `False`; every other outcome — transport
error, error status (via `raise_for_status`), another status falling through,
or a failure inside `ensure` — is caught by the `except` block and yields
`False`. `deleteResp` is the HTTP status or a transport error. -/
def delete_by_id (cfg : WvConfig) (st : WvState) (env : WvEnsureEnv)
    (deleteResp : Except PyErr Nat) (point_id : String) :
    WvState × List WvCall × Except PyErr Bool :=
  match ensure_collection_once cfg st env with
  | (st', tr, .error _) => (st', tr, .ok false)
  | (st', tr, .ok _) =>
    (st', tr ++ [.deleteObject point_id],
      match deleteResp with
      | .error _ => .ok false
      | .ok status =>
        if status = 200 ∨ status = 204 then .ok true
        else if status = 404 then .ok false
        else .ok false)

end WeaviateVectorStore

/-! ## Voyage embeddings client (`voyage_client.py`) -/

namespace VoyageClient

/-- Model of `VoyageClient.embed_batch`: one remote embed call tagged with `input_type`
(defaulting to `"document"` at the call sites that omit it); the resulting
`result.embeddings` list is returned unchanged — no count or shape check —
and any exception from the remote call is re-raised. `remote` models
`self.client.embed`. -/
def embed_batch (remote : List JsonVal → String → Except PyErr (List Vec))
    (texts : List JsonVal) (input_type : String) : Except PyErr (List Vec) :=
  remote texts input_type

end VoyageClient

/-! ## Orchestration chains (`base_chain.py`) -/

namespace RAGChain

/-- The fixed augmented-prompt template of `RAGChain.run` (its f-string). -/
def ragPrompt (context query : String) : String :=
  "Context information:\n" ++ context ++ "\n\nUser question: " ++ query ++
    "\n\nPlease answer the question based on the provided context."

/-- The context parts: `metadata.get("text", "")` for each result, in order. -/
def contextParts (results : List QdrantVectorStore.QResult) : List JsonVal :=
  results.map (fun r => (metaGet r.metadata "text").getD (.jstr ""))

/-- Whether a Python value is a `str`. -/
def isStr : JsonVal → Bool
  | .jstr _ => true
  | _ => false

/-- The string carried by a `str` value (irrelevant otherwise). -/
def strVal : JsonVal → String
  | .jstr s => s
  | _ => ""

/-- Model of `"\n\n".join(context_parts)`: raises `TypeError` when a part is not a
string, otherwise the blank-line-separated concatenation. -/
def joinParts (parts : List JsonVal) : Except PyErr String :=
  if parts.all isStr then
    .ok (String.intercalate "\n\n" (parts.map strVal))
  else
    .error .typeError

/-- The dict returned by `RAGChain.run`. -/
structure RAGOut where
  response : String
  sources : List QdrantVectorStore.QResult
  query : String
  deriving DecidableEq, Repr

/-- Model of `RAGChain.run`: embed the query (query mode), search the Qdrant store,
assemble the context and sources in result order, call the LLM on the fixed
template, and return response, sources, and query. Any step's failure is
re-raised. `embed_query`, `qsearch`, and `llm` model the three remote
collaborators. -/
def run (cfg : QdrantConfig)
    (embed_query : String → Except PyErr Vec)
    (qsearch : Vec → Nat → ℚ → Except PyErr (List QHit))
    (llm : String → Option String → Except PyErr String)
    (query : String) (top_k : Nat) (score_threshold : ℚ)
    (system_prompt : Option String) : Except PyErr RAGOut :=
  match embed_query query with
  | .error e => .error e
  | .ok query_embedding =>
    match (QdrantVectorStore.search_similar cfg
        (qsearch query_embedding top_k score_threshold)
        query_embedding top_k score_threshold).2 with
    | .error e => .error e
    | .ok search_results =>
      match joinParts (contextParts search_results) with
      | .error e => .error e
      | .ok context =>
        match llm (ragPrompt context query) system_prompt with
        | .error e => .error e
        | .ok response => .ok ⟨response, search_results, query⟩

end RAGChain

namespace EmbeddingChain

/-- Model of `texts = [doc[text_field] for doc in documents]`: the first document
missing the key raises `KeyError`. -/
def extractTexts (documents : List Metadata) (text_field : String) :
    Except PyErr (List JsonVal) :=
  match documents with
  | [] => .ok []
  | doc :: rest =>
    match metaGet doc text_field with
    | none => .error (.keyError text_field)
    | some v =>
      match extractTexts rest text_field with
      | .error e => .error e
      | .ok vs => .ok (v :: vs)

/-- Model of `EmbeddingChain.run`: extract the texts, embed them in one batch call in
`"document"` mode, and store the embeddings with each document's full dict as
metadata via `QdrantVectorStore.store_batch`, returning the ids. Any failure
is re-raised; the trace records the store's backend calls. -/
def run (cfg : QdrantConfig)
    (remoteEmbed : List JsonVal → String → Except PyErr (List Vec))
    (upsertResp : Except PyErr Unit)
    (documents : List Metadata) (text_field : String) (freshIds : Nat → String) :
    List QCall × Except PyErr (List String) :=
  match extractTexts documents text_field with
  | .error e => ([], .error e)
  | .ok texts =>
    match VoyageClient.embed_batch remoteEmbed texts "document" with
    | .error e => ([], .error e)
    | .ok embeddings =>
      QdrantVectorStore.store_batch cfg upsertResp embeddings documents freshIds

end EmbeddingChain

/-! ## Concurrency model of `WeaviateVectorStore._ensure_collection_once`

Each of N concurrent tasks runs the body of `_ensure_collection_once`:
check `_class_ready` (fast path), acquire `_class_lock`, re-check
`_class_ready`, run `ensure_collection` (the provisioning side effect, which
may fail), set `_class_ready = True`, release the lock. The shared state is
the flag, the lock, and a counter of completed provisioning side effects. -/

/-- Program counter of one task inside `_ensure_collection_once`. -/
inductive TaskPC where
  | start
  | waitLock
  | critStart
  | provisioning
  | setReady
  | doneOk
  | doneFail
  deriving DecidableEq, Repr

/-- Whether a task is inside the lock-protected critical section. -/
def TaskPC.inCrit : TaskPC → Prop
  | .critStart => True
  | .provisioning => True
  | .setReady => True
  | _ => False

instance (pc : TaskPC) : Decidable pc.inCrit := by
  cases pc <;> simp [TaskPC.inCrit] <;> infer_instance

/-- Shared state plus per-task program counters for `n` concurrent callers of
`_ensure_collection_once`. -/
structure LockSys (n : ℕ) where
  ready : Bool
  lock : Option (Fin n)
  effects : ℕ
  pc : Fin n → TaskPC

/-- All tasks about to enter `_ensure_collection_once` on a fresh store. -/
def LockSys.init (n : ℕ) : LockSys n :=
  ⟨false, none, 0, fun _ => .start⟩

/-- The state after a failed `ensure_collection` run by task `i`: the `async
with` block releases the lock, the exception propagates, `_class_ready` is
left untouched. -/
def LockSys.provFailState {n : ℕ} (s : LockSys n) (i : Fin n) : LockSys n :=
  { s with lock := none, pc := Function.update s.pc i .doneFail }

/-- One interleaving step of the N tasks. -/
inductive LockStep (n : ℕ) : LockSys n → LockSys n → Prop where
  | fastTrue (s : LockSys n) (i : Fin n) :
      s.pc i = .start → s.ready = true →
      LockStep n s { s with pc := Function.update s.pc i .doneOk }
  | fastFalse (s : LockSys n) (i : Fin n) :
      s.pc i = .start → s.ready = false →
      LockStep n s { s with pc := Function.update s.pc i .waitLock }
  | acquire (s : LockSys n) (i : Fin n) :
      s.pc i = .waitLock → s.lock = none →
      LockStep n s { s with lock := some i, pc := Function.update s.pc i .critStart }
  | critTrue (s : LockSys n) (i : Fin n) :
      s.pc i = .critStart → s.ready = true →
      LockStep n s { s with lock := none, pc := Function.update s.pc i .doneOk }
  | critFalse (s : LockSys n) (i : Fin n) :
      s.pc i = .critStart → s.ready = false →
      LockStep n s { s with pc := Function.update s.pc i .provisioning }
  | provOk (s : LockSys n) (i : Fin n) :
      s.pc i = .provisioning →
      LockStep n s { s with effects := s.effects + 1,
                            pc := Function.update s.pc i .setReady }
  | provFail (s : LockSys n) (i : Fin n) :
      s.pc i = .provisioning →
      LockStep n s (s.provFailState i)
  | finish (s : LockSys n) (i : Fin n) :
      s.pc i = .setReady →
      LockStep n s { s with ready := true, lock := none,
                            pc := Function.update s.pc i .doneOk }

/-- Reachability from the initial state. -/
def LockReachable (n : ℕ) (s : LockSys n) : Prop :=
  Relation.ReflTransGen (LockStep n) (LockSys.init n) s

/-- The inductive invariant of the double-checked lock. -/
structure LockInv {n : ℕ} (s : LockSys n) : Prop where
  mutex : ∀ i, (s.pc i).inCrit → s.lock = some i
  provNotReady : ∀ i, s.pc i = .provisioning ∨ s.pc i = .setReady → s.ready = false
  doneOkReady : ∀ i, s.pc i = .doneOk → s.ready = true
  effectsEq :
    (s.effects = 0 ∧ s.ready = false ∧ ∀ i, s.pc i ≠ .setReady) ∨
    (s.effects = 1 ∧ (s.ready = true ∨ ∃ i, s.pc i = .setReady))

theorem lockInv_init (n : ℕ) : LockInv (LockSys.init n) := by
  refine ⟨?_, ?_, ?_, ?_⟩
  · intro i h
    simp [LockSys.init, TaskPC.inCrit] at h
  · intro i _
    rfl
  · intro i h
    simp [LockSys.init] at h
  · exact Or.inl ⟨rfl, rfl, fun i => by simp [LockSys.init]⟩

theorem lockInv_step {n : ℕ} {s s' : LockSys n} (inv : LockInv s)
    (st : LockStep n s s') : LockInv s' := by
  cases st with
  | fastTrue i hpc hr =>
    refine ⟨?_, ?_, ?_, ?_⟩
    · intro j hj
      by_cases hji : j = i
      · subst hji
        simp [Function.update_apply, TaskPC.inCrit] at hj
      · simp only [Function.update_apply, if_neg hji] at hj
        exact inv.mutex j hj
    · intro j hj
      by_cases hji : j = i
      · subst hji
        simp [Function.update_apply] at hj
      · simp only [Function.update_apply, if_neg hji] at hj
        exact inv.provNotReady j hj
    · intro j _
      exact hr
    · rcases inv.effectsEq with ⟨_, hrf, _⟩ | ⟨h1, _⟩
      · rw [hr] at hrf
        exact absurd hrf (by simp)
      · exact Or.inr ⟨h1, Or.inl hr⟩
  | fastFalse i hpc hr =>
    refine ⟨?_, ?_, ?_, ?_⟩
    · intro j hj
      by_cases hji : j = i
      · subst hji
        simp [Function.update_apply, TaskPC.inCrit] at hj
      · simp only [Function.update_apply, if_neg hji] at hj
        exact inv.mutex j hj
    · intro j _
      exact hr
    · intro j hj
      by_cases hji : j = i
      · subst hji
        simp [Function.update_apply] at hj
      · simp only [Function.update_apply, if_neg hji] at hj
        exact inv.doneOkReady j hj
    · rcases inv.effectsEq with ⟨h0, hrf, hns⟩ | ⟨h1, hc⟩
      · refine Or.inl ⟨h0, hrf, fun j => ?_⟩
        by_cases hji : j = i
        · subst hji
          simp [Function.update_apply]
        · simp only [Function.update_apply, if_neg hji]
          exact hns j
      · rcases hc with hrt | ⟨k, hk⟩
        · rw [hr] at hrt
          exact absurd hrt (by simp)
        · have hki : k ≠ i := by
            intro h
            rw [h, hpc] at hk
            exact absurd hk (by simp)
          refine Or.inr ⟨h1, Or.inr ⟨k, ?_⟩⟩
          simp only [Function.update_apply, if_neg hki]
          exact hk
  | acquire i hpc hl =>
    refine ⟨?_, ?_, ?_, ?_⟩
    · intro j hj
      by_cases hji : j = i
      · subst hji
        rfl
      · simp only [Function.update_apply, if_neg hji] at hj
        have := inv.mutex j hj
        rw [hl] at this
        exact absurd this (by simp)
    · intro j hj
      by_cases hji : j = i
      · subst hji
        simp [Function.update_apply] at hj
      · simp only [Function.update_apply, if_neg hji] at hj
        exact inv.provNotReady j hj
    · intro j hj
      by_cases hji : j = i
      · subst hji
        simp [Function.update_apply] at hj
      · simp only [Function.update_apply, if_neg hji] at hj
        exact inv.doneOkReady j hj
    · rcases inv.effectsEq with ⟨h0, hrf, hns⟩ | ⟨h1, hc⟩
      · refine Or.inl ⟨h0, hrf, fun j => ?_⟩
        by_cases hji : j = i
        · subst hji
          simp [Function.update_apply]
        · simp only [Function.update_apply, if_neg hji]
          exact hns j
      · rcases hc with hrt | ⟨k, hk⟩
        · exact Or.inr ⟨h1, Or.inl hrt⟩
        · have hki : k ≠ i := by
            intro h
            rw [h, hpc] at hk
            exact absurd hk (by simp)
          refine Or.inr ⟨h1, Or.inr ⟨k, ?_⟩⟩
          simp only [Function.update_apply, if_neg hki]
          exact hk
  | critTrue i hpc hr =>
    refine ⟨?_, ?_, ?_, ?_⟩
    · intro j hj
      by_cases hji : j = i
      · subst hji
        simp [Function.update_apply, TaskPC.inCrit] at hj
      · simp only [Function.update_apply, if_neg hji] at hj
        have h1 := inv.mutex j hj
        have h2 := inv.mutex i (by rw [hpc]; trivial)
        rw [h1] at h2
        exact absurd (Option.some.inj h2) hji
    · intro j hj
      by_cases hji : j = i
      · subst hji
        simp [Function.update_apply] at hj
      · simp only [Function.update_apply, if_neg hji] at hj
        have := inv.provNotReady j hj
        rw [hr] at this
        exact absurd this (by simp)
    · intro j _
      exact hr
    · rcases inv.effectsEq with ⟨_, hrf, _⟩ | ⟨h1, _⟩
      · rw [hr] at hrf
        exact absurd hrf (by simp)
      · exact Or.inr ⟨h1, Or.inl hr⟩
  | critFalse i hpc hr =>
    refine ⟨?_, ?_, ?_, ?_⟩
    · intro j hj
      by_cases hji : j = i
      · subst hji
        exact inv.mutex j (by rw [hpc]; trivial)
      · simp only [Function.update_apply, if_neg hji] at hj
        exact inv.mutex j hj
    · intro j _
      exact hr
    · intro j hj
      by_cases hji : j = i
      · subst hji
        simp [Function.update_apply] at hj
      · simp only [Function.update_apply, if_neg hji] at hj
        have := inv.doneOkReady j hj
        rw [hr] at this
        exact absurd this (by simp)
    · rcases inv.effectsEq with ⟨h0, hrf, hns⟩ | ⟨h1, hc⟩
      · refine Or.inl ⟨h0, hrf, fun j => ?_⟩
        by_cases hji : j = i
        · subst hji
          simp [Function.update_apply]
        · simp only [Function.update_apply, if_neg hji]
          exact hns j
      · rcases hc with hrt | ⟨k, hk⟩
        · rw [hr] at hrt
          exact absurd hrt (by simp)
        · have hki : k ≠ i := by
            intro h
            rw [h, hpc] at hk
            exact absurd hk (by simp)
          refine Or.inr ⟨h1, Or.inr ⟨k, ?_⟩⟩
          simp only [Function.update_apply, if_neg hki]
          exact hk
  | provOk i hpc =>
    have hrf : s.ready = false := inv.provNotReady i (Or.inl hpc)
    refine ⟨?_, ?_, ?_, ?_⟩
    · intro j hj
      by_cases hji : j = i
      · subst hji
        exact inv.mutex j (by rw [hpc]; trivial)
      · simp only [Function.update_apply, if_neg hji] at hj
        exact inv.mutex j hj
    · intro j _
      exact hrf
    · intro j hj
      by_cases hji : j = i
      · subst hji
        simp [Function.update_apply] at hj
      · simp only [Function.update_apply, if_neg hji] at hj
        have := inv.doneOkReady j hj
        rw [hrf] at this
        exact absurd this (by simp)
    · rcases inv.effectsEq with ⟨h0, _, _⟩ | ⟨_, hc⟩
      · refine Or.inr ⟨by rw [h0], Or.inr ⟨i, ?_⟩⟩
        simp [Function.update_apply]
      · exfalso
        rcases hc with hrt | ⟨k, hk⟩
        · rw [hrf] at hrt
          exact absurd hrt (by simp)
        · have h1 := inv.mutex k (by rw [hk]; trivial)
          have h2 := inv.mutex i (by rw [hpc]; trivial)
          rw [h1] at h2
          have hki := Option.some.inj h2
          rw [hki, hpc] at hk
          exact absurd hk (by simp)
  | provFail i hpc =>
    have hrf : s.ready = false := inv.provNotReady i (Or.inl hpc)
    refine ⟨?_, ?_, ?_, ?_⟩
    · intro j hj
      by_cases hji : j = i
      · subst hji
        simp [LockSys.provFailState, Function.update_apply, TaskPC.inCrit] at hj
      · simp only [LockSys.provFailState, Function.update_apply, if_neg hji] at hj
        have h1 := inv.mutex j hj
        have h2 := inv.mutex i (by rw [hpc]; trivial)
        rw [h1] at h2
        exact absurd (Option.some.inj h2) hji
    · intro j _
      exact hrf
    · intro j hj
      by_cases hji : j = i
      · subst hji
        simp [LockSys.provFailState, Function.update_apply] at hj
      · simp only [LockSys.provFailState, Function.update_apply, if_neg hji] at hj
        have := inv.doneOkReady j hj
        rw [hrf] at this
        exact absurd this (by simp)
    · rcases inv.effectsEq with ⟨h0, _, hns⟩ | ⟨_, hc⟩
      · refine Or.inl ⟨h0, hrf, fun j => ?_⟩
        by_cases hji : j = i
        · subst hji
          simp [LockSys.provFailState, Function.update_apply]
        · simp only [LockSys.provFailState, Function.update_apply, if_neg hji]
          exact hns j
      · exfalso
        rcases hc with hrt | ⟨k, hk⟩
        · rw [hrf] at hrt
          exact absurd hrt (by simp)
        · have h1 := inv.mutex k (by rw [hk]; trivial)
          have h2 := inv.mutex i (by rw [hpc]; trivial)
          rw [h1] at h2
          have hki := Option.some.inj h2
          rw [hki, hpc] at hk
          exact absurd hk (by simp)
  | finish i hpc =>
    refine ⟨?_, ?_, ?_, ?_⟩
    · intro j hj
      by_cases hji : j = i
      · subst hji
        simp [Function.update_apply, TaskPC.inCrit] at hj
      · simp only [Function.update_apply, if_neg hji] at hj
        have h1 := inv.mutex j hj
        have h2 := inv.mutex i (by rw [hpc]; trivial)
        rw [h1] at h2
        exact absurd (Option.some.inj h2) hji
    · intro j hj
      exfalso
      by_cases hji : j = i
      · subst hji
        simp [Function.update_apply] at hj
      · simp only [Function.update_apply, if_neg hji] at hj
        have h1 := inv.mutex j (by rcases hj with h | h <;> rw [h] <;> trivial)
        have h2 := inv.mutex i (by rw [hpc]; trivial)
        rw [h1] at h2
        exact absurd (Option.some.inj h2) hji
    · intro j _
      rfl
    · rcases inv.effectsEq with ⟨_, _, hns⟩ | ⟨h1, _⟩
      · exact absurd hpc (hns i)
      · exact Or.inr ⟨h1, Or.inl rfl⟩

theorem lockInv_reachable {n : ℕ} {s : LockSys n} (h : LockReachable n s) :
    LockInv s := by
  induction h with
  | refl => exact lockInv_init n
  | tail _ st ih => exact lockInv_step ih st

/-! ## Helper lemmas -/

theorem wv_ensure_trace_mem (cfg : WvConfig) (env : WvEnsureEnv) :
    ∀ c ∈ (WeaviateVectorStore.ensure_collection cfg env).1,
      c = .getSchema ∨ c = .createClass cfg.class_name := by
  unfold WeaviateVectorStore.ensure_collection
  cases hs : env.schemaClasses with
  | error e =>
    intro c hc
    simp at hc
    exact Or.inl hc
  | ok names =>
    by_cases hm : cfg.class_name ∈ names
    · intro c hc
      simp [hm] at hc
      exact Or.inl hc
    · intro c hc
      simp [hm] at hc
      exact hc

theorem wv_ensure_once_trace_mem (cfg : WvConfig) (st : WvState) (env : WvEnsureEnv) :
    ∀ c ∈ (WeaviateVectorStore.ensure_collection_once cfg st env).2.1,
      c = .getSchema ∨ c = .createClass cfg.class_name := by
  unfold WeaviateVectorStore.ensure_collection_once
  by_cases hr : st.class_ready
  · simp [hr]
  · simp only [hr, if_false]
    cases he : WeaviateVectorStore.ensure_collection cfg env with
    | mk tr res =>
      have hmem := wv_ensure_trace_mem cfg env
      rw [he] at hmem
      cases res with
      | ok u => simpa using hmem
      | error e => simpa using hmem

theorem wv_ensure_trace_head (cfg : WvConfig) (env : WvEnsureEnv) :
    ∃ tl, (WeaviateVectorStore.ensure_collection cfg env).1 = .getSchema :: tl := by
  unfold WeaviateVectorStore.ensure_collection
  cases hs : env.schemaClasses with
  | error e => exact ⟨[], rfl⟩
  | ok names =>
    by_cases hm : cfg.class_name ∈ names
    · simp [hm]
    · simp [hm]

theorem wv_ensure_once_trace_head (cfg : WvConfig) (st : WvState) (env : WvEnsureEnv)
    (h : st.class_ready = false) :
    ∃ tl, (WeaviateVectorStore.ensure_collection_once cfg st env).2.1 = .getSchema :: tl := by
  unfold WeaviateVectorStore.ensure_collection_once
  rw [h]
  simp only [Bool.false_eq_true, if_false]
  obtain ⟨tl, htl⟩ := wv_ensure_trace_head cfg env
  cases he : WeaviateVectorStore.ensure_collection cfg env with
  | mk tr res =>
    rw [he] at htl
    cases res with
    | ok u => exact ⟨tl, htl⟩
    | error e => exact ⟨tl, htl⟩

theorem validate_all_error_of_bad (cfg : WvConfig) (vectors : List Vec)
    (h : ∃ v ∈ vectors, v.length ≠ cfg.vector_dimension) :
    ∃ msg, WeaviateVectorStore.validate_all cfg vectors = .error (.valueError msg) := by
  induction vectors with
  | nil =>
    obtain ⟨v, hv, _⟩ := h
    cases hv
  | cons w rest ih =>
    obtain ⟨v, hv, hbad⟩ := h
    by_cases hw : w.length = cfg.vector_dimension
    · have hvr : v ∈ rest := by
        cases hv with
        | head => exact absurd hw hbad
        | tail _ h' => exact h'
      obtain ⟨msg, hmsg⟩ := ih ⟨v, hvr, hbad⟩
      refine ⟨msg, ?_⟩
      unfold WeaviateVectorStore.validate_all WeaviateVectorStore.validate_dimension
      simp [hw, hmsg]
    · refine ⟨dimErrorMsg cfg.vector_dimension w.length, ?_⟩
      unfold WeaviateVectorStore.validate_all WeaviateVectorStore.validate_dimension
      simp [hw]

/-! ## Claims -/

/-- Concrete Qdrant configuration used in counterexamples (dimension D = 3). -/
def qCfg : QdrantConfig := ⟨"embeddings", 3⟩

/-- C1 counterexample: with configured dimension D = 3, `store_embedding` in the
Qdrant backend accepts the 2-component vector `[1, 2]` — it returns the point
id successfully instead of failing with `InvalidInput`, and it issues the
upsert network call to the backend; so the claim fails for the Qdrant
variant. -/
theorem C1_counterexample :
    ([(1 : ℚ), 2] : Vec).length ≠ qCfg.vector_dimension ∧
    QdrantVectorStore.store_embedding qCfg (.ok ()) [1, 2] [] none "p1" =
      ([.upsert "embeddings" [⟨"p1", [1, 2], []⟩]], .ok "p1") := by
  exact ⟨by decide, rfl⟩

/-- C1 (amended): only the Weaviate backend validates the embedding dimension:
its `store_embedding`, `store_batch`, and `search_similar` raise `ValueError`
(InvalidInput) on a wrong-dimension vector and issue no object-write, batch, or
search request (only lazy-provisioning calls may already have been issued). The
Qdrant backend performs no local dimension validation: `store_embedding` and
`search_similar` always issue their backend call with the vector as given. -/
theorem C1_dimension_validation :
    (∀ (cfg : WvConfig) (st st' : WvState) (env : WvEnsureEnv)
        (postResp : Except PyErr Unit) (tr : List WvCall) (v : Vec) (m : Metadata)
        (pid : Option String) (fid : String),
      v.length ≠ cfg.vector_dimension →
      WeaviateVectorStore.ensure_collection_once cfg st env = (st', tr, .ok ()) →
      WeaviateVectorStore.store_embedding cfg st env postResp v m pid fid =
        (st', tr, .error (.valueError (dimErrorMsg cfg.vector_dimension v.length)))) ∧
    (∀ (cfg : WvConfig) (st st' : WvState) (env : WvEnsureEnv)
        (batchResp : Except PyErr WeaviateVectorStore.WvBatchResp) (tr : List WvCall) (vectors : List Vec)
        (mlist : List Metadata) (fids : ℕ → String),
      vectors.length = mlist.length →
      (∃ v ∈ vectors, v.length ≠ cfg.vector_dimension) →
      WeaviateVectorStore.ensure_collection_once cfg st env = (st', tr, .ok ()) →
      ∃ msg, WeaviateVectorStore.store_batch cfg st env batchResp vectors mlist fids =
        (st', tr, .error (.valueError msg))) ∧
    (∀ (cfg : WvConfig) (st st' : WvState) (env : WvEnsureEnv)
        (searchResp : Except PyErr (List WvHit)) (parse : String → Option PyVal)
        (tr : List WvCall) (qv : Vec) (limit : ℕ) (th : ℚ),
      qv.length ≠ cfg.vector_dimension →
      WeaviateVectorStore.ensure_collection_once cfg st env = (st', tr, .ok ()) →
      WeaviateVectorStore.search_similar cfg st env searchResp parse qv limit th =
        (st', tr, .error (.valueError (dimErrorMsg cfg.vector_dimension qv.length)))) ∧
    (∀ (cfg : WvConfig) (st : WvState) (env : WvEnsureEnv),
      ∀ c ∈ (WeaviateVectorStore.ensure_collection_once cfg st env).2.1,
        c = .getSchema ∨ c = .createClass cfg.class_name) ∧
    (∀ (cfg : QdrantConfig) (upsertResp : Except PyErr Unit) (v : Vec) (m : Metadata)
        (pid : Option String) (fid : String),
      (QdrantVectorStore.store_embedding cfg upsertResp v m pid fid).1 =
        [.upsert cfg.collection_name [⟨pid.getD fid, v, m⟩]]) ∧
    (∀ (cfg : QdrantConfig) (searchResp : Except PyErr (List QHit)) (qv : Vec)
        (limit : ℕ) (th : ℚ),
      (QdrantVectorStore.search_similar cfg searchResp qv limit th).1 =
        [.search cfg.collection_name qv limit th]) := by
  refine ⟨?_, ?_, ?_, ?_, ?_, ?_⟩
  · intro cfg st st' env postResp tr v m pid fid hbad hE
    unfold WeaviateVectorStore.store_embedding
    rw [hE]
    unfold WeaviateVectorStore.validate_dimension
    simp [hbad]
  · intro cfg st st' env batchResp tr vectors mlist fids hlen hbad hE
    obtain ⟨msg, hmsg⟩ := validate_all_error_of_bad cfg vectors hbad
    refine ⟨msg, ?_⟩
    unfold WeaviateVectorStore.store_batch
    rw [hE]
    simp [hlen, hmsg]
  · intro cfg st st' env searchResp parse tr qv limit th hbad hE
    unfold WeaviateVectorStore.search_similar
    rw [hE]
    unfold WeaviateVectorStore.validate_dimension
    simp [hbad]
  · exact wv_ensure_once_trace_mem
  · intro cfg upsertResp v m pid fid
    rfl
  · intro cfg searchResp qv limit th
    rfl

/-- Concrete Weaviate configuration used in witnesses (dimension D = 3). -/
def wCfg : WvConfig := ⟨"Embeddings", 3⟩

/-- Concrete ensure environment: the class already exists remotely. -/
def wEnvOk : WvEnsureEnv := ⟨.ok ["Embeddings"], .ok ()⟩

/-- C1 witness: the amended theorem applied at a concrete wrong-dimension
vector (length 2 versus configured dimension 3) on an already-provisioned
store. -/
theorem C1_dimension_validation_witness :
    ([(1 : ℚ), 2] : Vec).length ≠ wCfg.vector_dimension ∧
    WeaviateVectorStore.store_embedding wCfg ⟨true⟩ wEnvOk (.ok ()) [1, 2] [] none "w1" =
      (⟨true⟩, [], .error (.valueError (dimErrorMsg 3 2))) ∧
    WeaviateVectorStore.search_similar wCfg ⟨true⟩ wEnvOk (.ok []) (fun _ => none)
        [1, 2] 5 (7/10) =
      (⟨true⟩, [], .error (.valueError (dimErrorMsg 3 2))) ∧
    (∃ msg, WeaviateVectorStore.store_batch wCfg ⟨true⟩ wEnvOk (.ok ⟨none, []⟩)
        [[1, 2]] [[]] (fun _ => "w2") = (⟨true⟩, [], .error (.valueError msg))) ∧
    (QdrantVectorStore.store_embedding qCfg (.ok ()) [1, 2] [] none "p9").1 =
      [.upsert "embeddings" [⟨"p9", [1, 2], []⟩]] := by
  refine ⟨by decide, ?_, ?_, ?_, ?_⟩
  · exact C1_dimension_validation.1 wCfg ⟨true⟩ ⟨true⟩ wEnvOk (.ok ()) [] [1, 2] [] none "w1"
      (by decide) rfl
  · exact C1_dimension_validation.2.2.1 wCfg ⟨true⟩ ⟨true⟩ wEnvOk (.ok []) (fun _ => none)
      [] [1, 2] 5 (7/10) (by decide) rfl
  · exact C1_dimension_validation.2.1 wCfg ⟨true⟩ ⟨true⟩ wEnvOk (.ok ⟨none, []⟩) []
      [[1, 2]] [[]] (fun _ => "w2") rfl ⟨[1, 2], by decide, by decide⟩ rfl
  · exact C1_dimension_validation.2.2.2.2.1 qCfg (.ok ()) [1, 2] [] none "p9"

/-- Whether a Qdrant backend call is a provisioning call. -/
def QCall.isProvision : QCall → Bool
  | .getCollections => true
  | .createCollection _ _ => true
  | _ => false

/-- C2 counterexample: a first `store_embedding` on the Qdrant backend issues
exactly one upsert call and no provisioning call at all — `ensure_collection`
is never invoked implicitly, so the claim fails for the Qdrant variant. -/
theorem C2_counterexample :
    QdrantVectorStore.store_embedding qCfg (.ok ()) [1, 2, 3] [] none "p2" =
      ([.upsert "embeddings" [⟨"p2", [1, 2, 3], []⟩]], .ok "p2") ∧
    ([QCall.upsert "embeddings" [⟨"p2", [1, 2, 3], []⟩]].all
      (fun c => ! c.isProvision)) = true := by
  exact ⟨rfl, by decide⟩

/-- C2 (amended): in the Weaviate backend every operation —
`store_embedding`, `store_batch`, `search_similar`, and `delete_by_id` —
invokes `EnsureCollection` implicitly on first use (each call trace of a
not-yet-ready store starts with the schema read); under N concurrent first
callers the double-checked lock admits at most one provisioning side effect
in every reachable state, and when all callers finish successfully exactly
one side effect occurred and the flag reads Ready; a provisioning failure
releases the lock and leaves the flag Unprovisioned so a later call retries.
The Qdrant backend never invokes `ensure_collection` implicitly: none of its
operations ever issues a provisioning call. -/
theorem C2_lazy_provisioning :
    ((∀ (cfg : WvConfig) (st : WvState) (env : WvEnsureEnv)
        (postResp : Except PyErr Unit) (v : Vec) (m : Metadata)
        (pid : Option String) (fid : String),
      st.class_ready = false →
      (WeaviateVectorStore.store_embedding cfg st env postResp v m pid fid).2.1.head? =
        some .getSchema) ∧
    (∀ (cfg : WvConfig) (st : WvState) (env : WvEnsureEnv)
        (batchResp : Except PyErr WeaviateVectorStore.WvBatchResp)
        (vectors : List Vec) (mlist : List Metadata) (fids : ℕ → String),
      st.class_ready = false →
      (WeaviateVectorStore.store_batch cfg st env batchResp vectors mlist fids).2.1.head? =
        some .getSchema) ∧
    (∀ (cfg : WvConfig) (st : WvState) (env : WvEnsureEnv)
        (searchResp : Except PyErr (List WvHit)) (parse : String → Option PyVal)
        (qv : Vec) (limit : ℕ) (th : ℚ),
      st.class_ready = false →
      (WeaviateVectorStore.search_similar cfg st env searchResp parse qv limit th).2.1.head? =
        some .getSchema) ∧
    (∀ (cfg : WvConfig) (st : WvState) (env : WvEnsureEnv)
        (deleteResp : Except PyErr ℕ) (pid : String),
      st.class_ready = false →
      (WeaviateVectorStore.delete_by_id cfg st env deleteResp pid).2.1.head? =
        some .getSchema)) ∧
    ((∀ (cfg : QdrantConfig) (upsertResp : Except PyErr Unit) (v : Vec) (m : Metadata)
        (pid : Option String) (fid : String),
      ∀ c ∈ (QdrantVectorStore.store_embedding cfg upsertResp v m pid fid).1,
        c.isProvision = false) ∧
    (∀ (cfg : QdrantConfig) (upsertResp : Except PyErr Unit) (vectors : List Vec)
        (mlist : List Metadata) (fids : ℕ → String),
      ∀ c ∈ (QdrantVectorStore.store_batch cfg upsertResp vectors mlist fids).1,
        c.isProvision = false) ∧
    (∀ (cfg : QdrantConfig) (searchResp : Except PyErr (List QHit)) (qv : Vec)
        (limit : ℕ) (th : ℚ),
      ∀ c ∈ (QdrantVectorStore.search_similar cfg searchResp qv limit th).1,
        c.isProvision = false) ∧
    (∀ (cfg : QdrantConfig) (deleteResp : Except PyErr Unit) (pid : String),
      ∀ c ∈ (QdrantVectorStore.delete_by_id cfg deleteResp pid).1,
        c.isProvision = false)) ∧
    ((∀ (n : ℕ) (s : LockSys n), LockReachable n s → s.effects ≤ 1) ∧
    (∀ (n : ℕ) (s : LockSys n) (hn : 0 < n), LockReachable n s →
      (∀ i, s.pc i = .doneOk) → s.effects = 1 ∧ s.ready = true) ∧
    (∀ (n : ℕ) (s : LockSys n) (i : Fin n), LockReachable n s →
      s.pc i = .provisioning →
      LockStep n s (s.provFailState i) ∧
        (s.provFailState i).ready = false ∧ (s.provFailState i).lock = none)) := by
  refine ⟨⟨?_, ?_, ?_, ?_⟩, ⟨?_, ?_, ?_, ?_⟩, ?_, ?_, ?_⟩
  · intro cfg st env postResp v m pid fid hst
    obtain ⟨tl, htl⟩ := wv_ensure_once_trace_head cfg st env hst
    unfold WeaviateVectorStore.store_embedding
    cases hE : WeaviateVectorStore.ensure_collection_once cfg st env with
    | mk st' rest =>
      cases rest with
      | mk tr res =>
        rw [hE] at htl
        simp only at htl
        cases res with
        | error e => simp [htl]
        | ok u =>
          cases hv : WeaviateVectorStore.validate_dimension cfg v with
          | error e => simp [hv, htl]
          | ok u2 => simp [hv, htl]
  · intro cfg st env batchResp vectors mlist fids hst
    obtain ⟨tl, htl⟩ := wv_ensure_once_trace_head cfg st env hst
    unfold WeaviateVectorStore.store_batch
    cases hE : WeaviateVectorStore.ensure_collection_once cfg st env with
    | mk st' rest =>
      cases rest with
      | mk tr res =>
        rw [hE] at htl
        simp only at htl
        cases res with
        | error e => simp [htl]
        | ok u =>
          by_cases hlen : vectors.length ≠ mlist.length
          · simp [hlen, htl]
          · cases hv : WeaviateVectorStore.validate_all cfg vectors with
            | error e => simp [hlen, hv, htl]
            | ok u2 => simp [hlen, hv, htl]
  · intro cfg st env searchResp parse qv limit th hst
    obtain ⟨tl, htl⟩ := wv_ensure_once_trace_head cfg st env hst
    unfold WeaviateVectorStore.search_similar
    cases hE : WeaviateVectorStore.ensure_collection_once cfg st env with
    | mk st' rest =>
      cases rest with
      | mk tr res =>
        rw [hE] at htl
        simp only at htl
        cases res with
        | error e => simp [htl]
        | ok u =>
          cases hv : WeaviateVectorStore.validate_dimension cfg qv with
          | error e => simp [hv, htl]
          | ok u2 => simp [hv, htl]
  · intro cfg st env deleteResp pid hst
    obtain ⟨tl, htl⟩ := wv_ensure_once_trace_head cfg st env hst
    unfold WeaviateVectorStore.delete_by_id
    cases hE : WeaviateVectorStore.ensure_collection_once cfg st env with
    | mk st' rest =>
      cases rest with
      | mk tr res =>
        rw [hE] at htl
        simp only at htl
        cases res with
        | error e => simp [htl]
        | ok u => simp [htl]
  · intro cfg upsertResp v m pid fid c hc
    simp only [QdrantVectorStore.store_embedding, List.mem_singleton] at hc
    subst hc
    rfl
  · intro cfg upsertResp vectors mlist fids c hc
    unfold QdrantVectorStore.store_batch at hc
    by_cases hlen : vectors.length ≠ mlist.length
    · simp [hlen] at hc
    · simp only [hlen, if_false, List.mem_singleton] at hc
      subst hc
      rfl
  · intro cfg searchResp qv limit th c hc
    simp only [QdrantVectorStore.search_similar, List.mem_singleton] at hc
    subst hc
    rfl
  · intro cfg deleteResp pid c hc
    simp only [QdrantVectorStore.delete_by_id, List.mem_singleton] at hc
    subst hc
    rfl
  · intro n s hreach
    rcases (lockInv_reachable hreach).effectsEq with ⟨h0, _, _⟩ | ⟨h1, _⟩
    · rw [h0]
      exact Nat.zero_le 1
    · rw [h1]
  · intro n s hn hreach hall
    have inv := lockInv_reachable hreach
    have hready : s.ready = true := inv.doneOkReady ⟨0, hn⟩ (hall ⟨0, hn⟩)
    rcases inv.effectsEq with ⟨_, hrf, _⟩ | ⟨h1, _⟩
    · rw [hready] at hrf
      exact absurd hrf (by simp)
    · exact ⟨h1, hready⟩
  · intro n s i hreach hpc
    have inv := lockInv_reachable hreach
    have hrf : s.ready = false := inv.provNotReady i (Or.inl hpc)
    exact ⟨LockStep.provFail s i hpc, hrf, rfl⟩

/-- The demo execution of one task through `_ensure_collection_once`:
fast-path check, lock acquisition, re-check, provisioning, flag set. -/
def lockDemo1 : LockSys 1 :=
  { LockSys.init 1 with pc := Function.update (LockSys.init 1).pc 0 .waitLock }

def lockDemo2 : LockSys 1 :=
  { lockDemo1 with lock := some 0, pc := Function.update lockDemo1.pc 0 .critStart }

def lockDemo3 : LockSys 1 :=
  { lockDemo2 with pc := Function.update lockDemo2.pc 0 .provisioning }

def lockDemo4 : LockSys 1 :=
  { lockDemo3 with effects := lockDemo3.effects + 1,
                   pc := Function.update lockDemo3.pc 0 .setReady }

def lockDemo5 : LockSys 1 :=
  { lockDemo4 with ready := true, lock := none,
                   pc := Function.update lockDemo4.pc 0 .doneOk }

theorem lockDemo3_reachable : LockReachable 1 lockDemo3 :=
  Relation.ReflTransGen.tail
    (Relation.ReflTransGen.tail
      (Relation.ReflTransGen.tail Relation.ReflTransGen.refl
        (LockStep.fastFalse (LockSys.init 1) 0 rfl rfl))
      (LockStep.acquire lockDemo1 0 (by decide) rfl))
    (LockStep.critFalse lockDemo2 0 (by decide) rfl)

theorem lockDemo5_reachable : LockReachable 1 lockDemo5 :=
  Relation.ReflTransGen.tail
    (Relation.ReflTransGen.tail lockDemo3_reachable
      (LockStep.provOk lockDemo3 0 (by decide)))
    (LockStep.finish lockDemo4 0 (by decide))

/-- C2 witness: the amended theorem applied to a concrete not-yet-ready
Weaviate store (all four operations start with the schema read), to concrete
Qdrant calls of all four operations (none is a provisioning call), and to a
concrete one-task lock execution that completes provisioning (exactly one
side effect, Ready observed) plus the state about to fail provisioning. -/
theorem C2_lazy_provisioning_witness :
    (WeaviateVectorStore.store_embedding wCfg ⟨false⟩ wEnvOk (.ok ())
        [1, 2, 3] [] none "w3").2.1.head? = some .getSchema ∧
    (WeaviateVectorStore.store_batch wCfg ⟨false⟩ wEnvOk (.ok ⟨none, []⟩)
        [[1, 2, 3]] [[]] (fun _ => "w5")).2.1.head? = some .getSchema ∧
    (WeaviateVectorStore.search_similar wCfg ⟨false⟩ wEnvOk (.ok [])
        (fun _ => none) [1, 2, 3] 5 0).2.1.head? = some .getSchema ∧
    (WeaviateVectorStore.delete_by_id wCfg ⟨false⟩ wEnvOk (.ok 204)
        "x").2.1.head? = some .getSchema ∧
    QCall.isProvision (.upsert "embeddings" [⟨"w4", [1, 2, 3], []⟩]) = false ∧
    QCall.isProvision (.upsert "embeddings" [⟨"w6", [1, 2, 3], []⟩]) = false ∧
    QCall.isProvision (.search "embeddings" [1] 5 0) = false ∧
    QCall.isProvision (.delete "embeddings" "x") = false ∧
    lockDemo5.effects ≤ 1 ∧
    (lockDemo5.effects = 1 ∧ lockDemo5.ready = true) ∧
    (LockStep 1 lockDemo3 (lockDemo3.provFailState 0) ∧
      (lockDemo3.provFailState 0).ready = false ∧
      (lockDemo3.provFailState 0).lock = none) := by
  refine ⟨?_, ?_, ?_, ?_, ?_, ?_, ?_, ?_, ?_, ?_, ?_⟩
  · exact C2_lazy_provisioning.1.1 wCfg ⟨false⟩ wEnvOk (.ok ()) [1, 2, 3] [] none
      "w3" rfl
  · exact C2_lazy_provisioning.1.2.1 wCfg ⟨false⟩ wEnvOk (.ok ⟨none, []⟩)
      [[1, 2, 3]] [[]] (fun _ => "w5") rfl
  · exact C2_lazy_provisioning.1.2.2.1 wCfg ⟨false⟩ wEnvOk (.ok []) (fun _ => none)
      [1, 2, 3] 5 0 rfl
  · exact C2_lazy_provisioning.1.2.2.2 wCfg ⟨false⟩ wEnvOk (.ok 204) "x" rfl
  · exact C2_lazy_provisioning.2.1.1 qCfg (.ok ()) [1, 2, 3] [] none "w4"
      (.upsert "embeddings" [⟨"w4", [1, 2, 3], []⟩]) (by decide)
  · exact C2_lazy_provisioning.2.1.2.1 qCfg (.ok ()) [[1, 2, 3]] [[]] (fun _ => "w6")
      (.upsert "embeddings" [⟨"w6", [1, 2, 3], []⟩]) (by decide)
  · exact C2_lazy_provisioning.2.1.2.2.1 qCfg (.ok []) [1] 5 0
      (.search "embeddings" [1] 5 0) (by decide)
  · exact C2_lazy_provisioning.2.1.2.2.2 qCfg (.ok ()) "x"
      (.delete "embeddings" "x") (by decide)
  · exact C2_lazy_provisioning.2.2.1 1 lockDemo5 lockDemo5_reachable
  · exact C2_lazy_provisioning.2.2.2.1 1 lockDemo5 (by decide) lockDemo5_reachable
      (by decide)
  · exact C2_lazy_provisioning.2.2.2.2 1 lockDemo3 0 lockDemo3_reachable (by decide)

theorem wv_search_ok (cfg : WvConfig) (st st' : WvState) (env : WvEnsureEnv)
    (tr : List WvCall) (hits : List WvHit) (parse : String → Option PyVal)
    (qv : Vec) (limit : ℕ) (th : ℚ)
    (hE : WeaviateVectorStore.ensure_collection_once cfg st env = (st', tr, .ok ()))
    (hqv : qv.length = cfg.vector_dimension) :
    WeaviateVectorStore.search_similar cfg st env (.ok hits) parse qv limit th =
      (st', tr ++ [.graphqlSearch cfg.class_name qv limit],
        .ok (WeaviateVectorStore.formatResults parse th hits)) := by
  unfold WeaviateVectorStore.search_similar
  rw [hE]
  unfold WeaviateVectorStore.validate_dimension
  simp [hqv]

theorem formatResults_score_ge (parse : String → Option PyVal) (th : ℚ)
    (hits : List WvHit) :
    ∀ r ∈ WeaviateVectorStore.formatResults parse th hits, th ≤ r.score := by
  intro r hr
  unfold WeaviateVectorStore.formatResults at hr
  simp only [List.mem_map, List.mem_filter] at hr
  obtain ⟨h, ⟨_, hp⟩, rfl⟩ := hr
  exact of_decide_eq_true hp

/-- C3: in the Weaviate backend's search, each hit's score is the backend's
calibrated certainty when present and `max(0, 1 - distance)` otherwise
(distance defaulting to 1), and every hit whose normalized score is below the
threshold is excluded from the returned list: the output is exactly the
formatted list of hits with score ≥ threshold, in backend order. -/
theorem C3_weaviate_score_normalization :
    (∀ (h : WvHit) (c : ℚ), h.certainty = some c → WeaviateVectorStore.scoreOf h = c) ∧
    (∀ h : WvHit, h.certainty = none →
      WeaviateVectorStore.scoreOf h = max 0 (1 - h.distance.getD 1)) ∧
    (∀ (cfg : WvConfig) (st st' : WvState) (env : WvEnsureEnv) (tr : List WvCall)
        (hits : List WvHit) (parse : String → Option PyVal) (qv : Vec)
        (limit : ℕ) (th : ℚ),
      WeaviateVectorStore.ensure_collection_once cfg st env = (st', tr, .ok ()) →
      qv.length = cfg.vector_dimension →
      (WeaviateVectorStore.search_similar cfg st env (.ok hits) parse qv limit th).2.2 =
        .ok (WeaviateVectorStore.formatResults parse th hits) ∧
      (∀ r ∈ WeaviateVectorStore.formatResults parse th hits, th ≤ r.score) ∧
      (∀ h ∈ hits, WeaviateVectorStore.scoreOf h < th →
        (⟨h.id, WeaviateVectorStore.scoreOf h,
          WeaviateVectorStore.formatMeta parse h.metadata_json⟩ :
            WeaviateVectorStore.WvResult) ∉
          WeaviateVectorStore.formatResults parse th hits)) := by
  refine ⟨?_, ?_, ?_⟩
  · intro h c hc
    unfold WeaviateVectorStore.scoreOf
    rw [hc]
  · intro h hc
    unfold WeaviateVectorStore.scoreOf
    rw [hc]
  · intro cfg st st' env tr hits parse qv limit th hE hqv
    refine ⟨?_, formatResults_score_ge parse th hits, ?_⟩
    · rw [wv_search_ok cfg st st' env tr hits parse qv limit th hE hqv]
    · intro h _ hlt hmem
      have := formatResults_score_ge parse th hits _ hmem
      simp only at this
      exact absurd this (not_le.mpr hlt)

/-- C3 witness: a concrete search over one certainty-scored hit (score 9/10)
and one distance-scored hit (distance 1/2, score 1/2) with threshold 7/10:
the second hit is excluded, the first kept with its certainty as score. -/
theorem C3_weaviate_score_normalization_witness :
    WeaviateVectorStore.scoreOf ⟨some "a", some (.vstr "x"), some (9/10), none⟩ = 9/10 ∧
    WeaviateVectorStore.scoreOf ⟨some "b", none, none, some (1/2)⟩ = max 0 (1 - 1/2) ∧
    (WeaviateVectorStore.search_similar wCfg ⟨true⟩ wEnvOk
        (.ok [⟨some "a", some (.vstr "x"), some (9/10), none⟩,
              ⟨some "b", none, none, some (1/2)⟩])
        (fun _ => some (.vdict [("k", .jstr "v")])) [1, 2, 3] 5 (7/10)).2.2 =
      .ok (WeaviateVectorStore.formatResults (fun _ => some (.vdict [("k", .jstr "v")])) (7/10)
        [⟨some "a", some (.vstr "x"), some (9/10), none⟩,
         ⟨some "b", none, none, some (1/2)⟩]) ∧
    (⟨some "b", WeaviateVectorStore.scoreOf ⟨some "b", none, none, some (1/2)⟩,
        WeaviateVectorStore.formatMeta (fun _ => some (.vdict [("k", .jstr "v")]))
          (some (.vstr "x"))⟩ : WeaviateVectorStore.WvResult) ∉
      WeaviateVectorStore.formatResults (fun _ => some (.vdict [("k", .jstr "v")])) (7/10)
        [⟨some "a", some (.vstr "x"), some (9/10), none⟩,
         ⟨some "b", none, none, some (1/2)⟩] := by
  refine ⟨?_, ?_, ?_, ?_⟩
  · exact C3_weaviate_score_normalization.1 ⟨some "a", some (.vstr "x"), some (9/10), none⟩
      (9/10) rfl
  · exact C3_weaviate_score_normalization.2.1 ⟨some "b", none, none, some (1/2)⟩ rfl
  · exact (C3_weaviate_score_normalization.2.2 wCfg ⟨true⟩ ⟨true⟩ wEnvOk [] _
      (fun _ => some (.vdict [("k", .jstr "v")])) [1, 2, 3] 5 (7/10) rfl (by decide)).1
  · exact (C3_weaviate_score_normalization.2.2 wCfg ⟨true⟩ ⟨true⟩ wEnvOk [] _
      (fun _ => some (.vdict [("k", .jstr "v")])) [1, 2, 3] 5 (7/10) rfl (by decide)).2.2
      ⟨some "b", none, none, some (1/2)⟩ (by simp)
      (by norm_num [WeaviateVectorStore.scoreOf])

/-- C4: for both backends, when the remote search honors its documented
contract (hits nearest-first, i.e. non-increasing normalized score, at most
`limit` of them, and — for Qdrant, which filters server-side — all at or
above the threshold), `search_similar` returns results sorted descending by
score, of length at most `limit`, with every score ≥ the threshold. Neither
client re-sorts: the order is exactly the backend order, and the Weaviate
client applies the threshold filter locally. -/
theorem C4_search_sorted_limit_threshold :
    (∀ (cfg : QdrantConfig) (hits : List QHit) (qv : Vec) (limit : ℕ) (th : ℚ),
      List.Pairwise (fun a b : QHit => b.score ≤ a.score) hits →
      hits.length ≤ limit →
      (∀ h ∈ hits, th ≤ h.score) →
      ∃ out, (QdrantVectorStore.search_similar cfg (.ok hits) qv limit th).2 = .ok out ∧
        List.Pairwise (fun a b : QdrantVectorStore.QResult => b.score ≤ a.score) out ∧
        out.length ≤ limit ∧ ∀ r ∈ out, th ≤ r.score) ∧
    (∀ (cfg : WvConfig) (st st' : WvState) (env : WvEnsureEnv) (tr : List WvCall)
        (hits : List WvHit) (parse : String → Option PyVal) (qv : Vec)
        (limit : ℕ) (th : ℚ),
      WeaviateVectorStore.ensure_collection_once cfg st env = (st', tr, .ok ()) →
      qv.length = cfg.vector_dimension →
      List.Pairwise (fun a b : WvHit =>
        WeaviateVectorStore.scoreOf b ≤ WeaviateVectorStore.scoreOf a) hits →
      hits.length ≤ limit →
      ∃ out,
        (WeaviateVectorStore.search_similar cfg st env (.ok hits) parse qv limit th).2.2 =
          .ok out ∧
        List.Pairwise (fun a b : WeaviateVectorStore.WvResult => b.score ≤ a.score) out ∧
        out.length ≤ limit ∧ ∀ r ∈ out, th ≤ r.score) := by
  constructor
  · intro cfg hits qv limit th hsort hlen hth
    refine ⟨hits.map QdrantVectorStore.formatHit, rfl, ?_, ?_, ?_⟩
    · exact List.pairwise_map.mpr hsort
    · rw [List.length_map]
      exact hlen
    · intro r hr
      obtain ⟨h, hh, rfl⟩ := List.mem_map.mp hr
      exact hth h hh
  · intro cfg st st' env tr hits parse qv limit th hE hqv hsort hlen
    refine ⟨WeaviateVectorStore.formatResults parse th hits, ?_, ?_, ?_,
      formatResults_score_ge parse th hits⟩
    · rw [wv_search_ok cfg st st' env tr hits parse qv limit th hE hqv]
    · unfold WeaviateVectorStore.formatResults
      exact List.pairwise_map.mpr
        ((hsort.sublist (List.filter_sublist hits)))
    · unfold WeaviateVectorStore.formatResults
      rw [List.length_map]
      exact le_trans (List.length_filter_le _ hits) hlen

/-- C4 witness: a concrete two-hit search in each backend (scores 9/10 and
8/10, threshold 7/10, limit 5) satisfying the ordering, length, and
threshold properties. -/
theorem C4_search_sorted_limit_threshold_witness :
    (∃ out, (QdrantVectorStore.search_similar qCfg
        (.ok [⟨"a", 9/10, []⟩, ⟨"b", 8/10, []⟩]) [1, 2, 3] 5 (7/10)).2 = .ok out ∧
      List.Pairwise (fun a b : QdrantVectorStore.QResult => b.score ≤ a.score) out ∧
      out.length ≤ 5 ∧ ∀ r ∈ out, (7/10 : ℚ) ≤ r.score) ∧
    (∃ out, (WeaviateVectorStore.search_similar wCfg ⟨true⟩ wEnvOk
        (.ok [⟨some "a", some (.vstr "x"), some (9/10), none⟩,
              ⟨some "b", some (.vstr "y"), some (8/10), none⟩])
        (fun _ => none) [1, 2, 3] 5 (7/10)).2.2 = .ok out ∧
      List.Pairwise (fun a b : WeaviateVectorStore.WvResult => b.score ≤ a.score) out ∧
      out.length ≤ 5 ∧ ∀ r ∈ out, (7/10 : ℚ) ≤ r.score) := by
  constructor
  · exact C4_search_sorted_limit_threshold.1 qCfg [⟨"a", 9/10, []⟩, ⟨"b", 8/10, []⟩]
      [1, 2, 3] 5 (7/10)
      (by norm_num) (by norm_num) (by norm_num)
  · exact C4_search_sorted_limit_threshold.2 wCfg ⟨true⟩ ⟨true⟩ wEnvOk []
      [⟨some "a", some (.vstr "x"), some (9/10), none⟩,
       ⟨some "b", some (.vstr "y"), some (8/10), none⟩]
      (fun _ => none) [1, 2, 3] 5 (7/10) rfl (by decide)
      (by norm_num [WeaviateVectorStore.scoreOf]) (by norm_num)

/-- C10 counterexample: a hit whose stored `metadata_json` is the string
`"[1, 2]"` — valid JSON but not an object, so `json.loads` succeeds with a
non-dict value — is returned with that non-dict value as its metadata: the
metadata field is not always a dictionary. -/
theorem C10_counterexample :
    (WeaviateVectorStore.search_similar wCfg ⟨true⟩ wEnvOk
        (.ok [⟨some "a", some (.vstr "[1, 2]"), some 1, none⟩])
        (fun _ => some .vother) [1, 2, 3] 5 0).2.2 =
      .ok [⟨some "a", 1, .vother⟩] ∧
    PyVal.isDict .vother = false := by
  exact ⟨rfl, rfl⟩

/-- C10 (amended): in the Weaviate search every entry's metadata is produced
without failing the call; it is a dictionary in all fallback branches — a
string that fails JSON parsing yields `{"raw_metadata": <raw string>}` and a
value that is neither a string nor a dict yields the empty dict — but a
string that parses as valid JSON has its loaded value passed through
unchanged, so a non-object JSON document makes the entry's metadata a
non-dict value. -/
theorem C10_weaviate_metadata_handling :
    (∀ (parse : String → Option PyVal) (s : String), parse s = none →
      WeaviateVectorStore.formatMeta parse (some (.vstr s)) =
        .vdict [("raw_metadata", .jstr s)]) ∧
    (∀ parse : String → Option PyVal,
      WeaviateVectorStore.formatMeta parse (some .vother) = .vdict []) ∧
    (∀ (parse : String → Option PyVal) (s : String) (v : PyVal), parse s = some v →
      WeaviateVectorStore.formatMeta parse (some (.vstr s)) = v) ∧
    (∀ (parse : String → Option PyVal) (m : Metadata),
      WeaviateVectorStore.formatMeta parse (some (.vdict m)) = .vdict m) ∧
    (∀ (cfg : WvConfig) (st st' : WvState) (env : WvEnsureEnv) (tr : List WvCall)
        (hits : List WvHit) (parse : String → Option PyVal) (qv : Vec)
        (limit : ℕ) (th : ℚ),
      WeaviateVectorStore.ensure_collection_once cfg st env = (st', tr, .ok ()) →
      qv.length = cfg.vector_dimension →
      ∃ out,
        (WeaviateVectorStore.search_similar cfg st env (.ok hits) parse qv limit th).2.2 =
          .ok out ∧
        ∀ h ∈ hits, th ≤ WeaviateVectorStore.scoreOf h →
          (⟨h.id, WeaviateVectorStore.scoreOf h,
            WeaviateVectorStore.formatMeta parse h.metadata_json⟩ :
              WeaviateVectorStore.WvResult) ∈ out) := by
  refine ⟨?_, ?_, ?_, ?_, ?_⟩
  · intro parse s hp
    unfold WeaviateVectorStore.formatMeta
    simp [hp]
  · intro parse
    rfl
  · intro parse s v hp
    unfold WeaviateVectorStore.formatMeta
    simp [hp]
  · intro parse m
    rfl
  · intro cfg st st' env tr hits parse qv limit th hE hqv
    refine ⟨WeaviateVectorStore.formatResults parse th hits, ?_, ?_⟩
    · rw [wv_search_ok cfg st st' env tr hits parse qv limit th hE hqv]
    · intro h hh hth
      unfold WeaviateVectorStore.formatResults
      exact List.mem_map.mpr
        ⟨h, List.mem_filter.mpr ⟨hh, decide_eq_true hth⟩, rfl⟩

/-- C10 witness: the amended theorem applied concretely — an unparseable
string is wrapped as `{"raw_metadata": ...}` and its entry still returned, a
non-string non-dict property yields the empty dict, a dict is kept, and a
valid non-object JSON string has its loaded non-dict value passed through. -/
theorem C10_weaviate_metadata_handling_witness :
    WeaviateVectorStore.formatMeta (fun _ => none) (some (.vstr "not json")) =
      .vdict [("raw_metadata", .jstr "not json")] ∧
    WeaviateVectorStore.formatMeta (fun _ => none) (some .vother) = .vdict [] ∧
    WeaviateVectorStore.formatMeta (fun _ => some .vother) (some (.vstr "[1, 2]")) =
      .vother ∧
    WeaviateVectorStore.formatMeta (fun _ => none)
      (some (.vdict [("k", .jstr "v")])) = .vdict [("k", .jstr "v")] ∧
    (∃ out, (WeaviateVectorStore.search_similar wCfg ⟨true⟩ wEnvOk
        (.ok [⟨some "a", some (.vstr "not json"), some (9/10), none⟩])
        (fun _ => none) [1, 2, 3] 5 (7/10)).2.2 = .ok out ∧
      (⟨some "a", WeaviateVectorStore.scoreOf
          ⟨some "a", some (.vstr "not json"), some (9/10), none⟩,
        WeaviateVectorStore.formatMeta (fun _ => none)
          (some (.vstr "not json"))⟩ : WeaviateVectorStore.WvResult) ∈ out) := by
  refine ⟨?_, ?_, ?_, ?_, ?_⟩
  · exact C10_weaviate_metadata_handling.1 (fun _ => none) "not json" rfl
  · exact C10_weaviate_metadata_handling.2.1 (fun _ => none)
  · exact C10_weaviate_metadata_handling.2.2.1 (fun _ => some .vother) "[1, 2]"
      .vother rfl
  · exact C10_weaviate_metadata_handling.2.2.2.1 (fun _ => none) [("k", .jstr "v")]
  · obtain ⟨out, hout, hmem⟩ := C10_weaviate_metadata_handling.2.2.2.2 wCfg ⟨true⟩
      ⟨true⟩ wEnvOk [] [⟨some "a", some (.vstr "not json"), some (9/10), none⟩]
      (fun _ => none) [1, 2, 3] 5 (7/10) rfl (by decide)
    exact ⟨out, hout, hmem ⟨some "a", some (.vstr "not json"), some (9/10), none⟩
      (by simp) (by norm_num [WeaviateVectorStore.scoreOf])⟩

/-- C5 counterexample: a remote embed call that returns 2 vectors for 3 input
texts — `embed_batch` returns the short list successfully instead of failing
with `ProviderError`: the client performs no count check. -/
theorem C5_counterexample :
    VoyageClient.embed_batch (fun _ _ => .ok [[1], [2]])
        [.jstr "a", .jstr "b", .jstr "c"] "document" = .ok [[1], [2]] ∧
    ([[1], [2]] : List Vec).length ≠
      ([.jstr "a", .jstr "b", .jstr "c"] : List JsonVal).length := by
  exact ⟨rfl, by decide⟩

/-- C5 (amended): `embed_batch` performs one remote call and surfaces its
result unchanged — remote failures propagate, but a vector count differing
from the text count is returned as-is with no `ProviderError`. A count
mismatch is instead rejected downstream: the ingest chain's `store_batch`
length check fails the call before any vector-store write. -/
theorem C5_embed_batch_passthrough :
    (∀ (remote : List JsonVal → String → Except PyErr (List Vec))
        (texts : List JsonVal) (input_type : String),
      VoyageClient.embed_batch remote texts input_type = remote texts input_type) ∧
    (∀ (remote : List JsonVal → String → Except PyErr (List Vec))
        (texts : List JsonVal) (input_type : String) (e : PyErr),
      remote texts input_type = .error e →
      VoyageClient.embed_batch remote texts input_type = .error e) ∧
    (∀ (cfg : QdrantConfig) (remote : List JsonVal → String → Except PyErr (List Vec))
        (documents : List Metadata) (fids : ℕ → String) (texts : List JsonVal)
        (embs : List Vec),
      EmbeddingChain.extractTexts documents "text" = .ok texts →
      remote texts "document" = .ok embs →
      embs.length ≠ documents.length →
      EmbeddingChain.run cfg remote (.ok ()) documents "text" fids =
        ([], .error (.valueError lenErrorMsg))) := by
  refine ⟨fun _ _ _ => rfl, ?_, ?_⟩
  · intro remote texts input_type e he
    unfold VoyageClient.embed_batch
    exact he
  · intro cfg remote documents fids texts embs hT hR hlen
    unfold EmbeddingChain.run VoyageClient.embed_batch
    simp only [hT, hR]
    unfold QdrantVectorStore.store_batch
    rw [if_pos hlen]

/-- C5 witness: the amended theorem applied to a concrete 2-for-3 count
mismatch — `embed_batch` passes it through, and the ingest chain rejects it
with the length-check `ValueError`, issuing no backend call. -/
theorem C5_embed_batch_passthrough_witness :
    VoyageClient.embed_batch (fun _ _ => .ok [[1], [2]])
        [.jstr "x", .jstr "y", .jstr "z"] "query" = .ok [[1], [2]] ∧
    EmbeddingChain.run qCfg (fun _ _ => .ok [[1], [2]])
        (.ok ()) [[("text", .jstr "x")], [("text", .jstr "y")], [("text", .jstr "z")]]
        "text" (fun _ => "p") = ([], .error (.valueError lenErrorMsg)) := by
  constructor
  · exact C5_embed_batch_passthrough.1 (fun _ _ => .ok [[1], [2]])
      [.jstr "x", .jstr "y", .jstr "z"] "query"
  · exact C5_embed_batch_passthrough.2.2 qCfg (fun _ _ => .ok [[1], [2]])
      [[("text", .jstr "x")], [("text", .jstr "y")], [("text", .jstr "z")]]
      (fun _ => "p") [.jstr "x", .jstr "y", .jstr "z"] [[1], [2]]
      rfl rfl (by decide)

theorem rag_run_ok (cfg : QdrantConfig) (embed : String → Except PyErr Vec)
    (qsearch : Vec → ℕ → ℚ → Except PyErr (List QHit))
    (llm : String → Option String → Except PyErr String)
    (query : String) (top_k : ℕ) (th : ℚ) (sys : Option String)
    (qv : Vec) (hits : List QHit) (resp : String)
    (hE : embed query = .ok qv)
    (hS : qsearch qv top_k th = .ok hits)
    (hall : (RAGChain.contextParts (hits.map QdrantVectorStore.formatHit)).all
      RAGChain.isStr = true)
    (hL : llm (RAGChain.ragPrompt
        (String.intercalate "\n\n"
          ((RAGChain.contextParts (hits.map QdrantVectorStore.formatHit)).map
            RAGChain.strVal))
        query) sys = .ok resp) :
    RAGChain.run cfg embed qsearch llm query top_k th sys =
      .ok ⟨resp, hits.map QdrantVectorStore.formatHit, query⟩ := by
  unfold RAGChain.run QdrantVectorStore.search_similar
  simp only [hE, hS]
  unfold RAGChain.joinParts
  rw [if_pos hall]
  simp only [hL]

/-- C6: `RAGChain.run` forms the context by joining each search result's
`"text"` metadata field (defaulting to the empty string when absent) with a
blank-line separator in result order, feeds it into the fixed prompt template,
and returns the results — each with id, score, and full metadata — as
sources in the same order; with zero search results the context is empty and
the call still succeeds with the LLM's context-free answer. -/
theorem C6_rag_context_and_sources :
    (∀ (hits : List QHit),
      RAGChain.contextParts (hits.map QdrantVectorStore.formatHit) =
        hits.map (fun h => (metaGet h.payload "text").getD (.jstr ""))) ∧
    (∀ (cfg : QdrantConfig) (embed : String → Except PyErr Vec)
        (qsearch : Vec → ℕ → ℚ → Except PyErr (List QHit))
        (llm : String → Option String → Except PyErr String)
        (query : String) (top_k : ℕ) (th : ℚ) (sys : Option String)
        (qv : Vec) (hits : List QHit) (resp : String),
      embed query = .ok qv →
      qsearch qv top_k th = .ok hits →
      (RAGChain.contextParts (hits.map QdrantVectorStore.formatHit)).all
        RAGChain.isStr = true →
      llm (RAGChain.ragPrompt
          (String.intercalate "\n\n"
            ((RAGChain.contextParts (hits.map QdrantVectorStore.formatHit)).map
              RAGChain.strVal))
          query) sys = .ok resp →
      RAGChain.run cfg embed qsearch llm query top_k th sys =
        .ok ⟨resp, hits.map QdrantVectorStore.formatHit, query⟩) ∧
    (∀ (cfg : QdrantConfig) (embed : String → Except PyErr Vec)
        (qsearch : Vec → ℕ → ℚ → Except PyErr (List QHit))
        (llm : String → Option String → Except PyErr String)
        (query : String) (top_k : ℕ) (th : ℚ) (sys : Option String)
        (qv : Vec) (resp : String),
      embed query = .ok qv →
      qsearch qv top_k th = .ok [] →
      llm (RAGChain.ragPrompt "" query) sys = .ok resp →
      RAGChain.run cfg embed qsearch llm query top_k th sys = .ok ⟨resp, [], query⟩) := by
  refine ⟨?_, ?_, ?_⟩
  · intro hits
    unfold RAGChain.contextParts
    rw [List.map_map]
    rfl
  · exact rag_run_ok
  · intro cfg embed qsearch llm query top_k th sys qv resp hE hS hL
    exact rag_run_ok cfg embed qsearch llm query top_k th sys qv [] resp hE hS rfl hL

/-- C6 witness: a concrete two-result query (texts "alpha" and "beta", joined
by a blank line) and a concrete zero-result query (empty context, successful
context-free answer). -/
theorem C6_rag_context_and_sources_witness :
    RAGChain.run qCfg (fun _ => .ok [1, 2, 3])
        (fun _ _ _ => .ok [⟨"a", 9/10, [("text", .jstr "alpha")]⟩,
                           ⟨"b", 8/10, [("text", .jstr "beta")]⟩])
        (fun prompt _ => .ok prompt) "q?" 5 (7/10) none =
      .ok ⟨RAGChain.ragPrompt "alpha\n\nbeta" "q?",
        [⟨"a", 9/10, [("text", .jstr "alpha")]⟩, ⟨"b", 8/10, [("text", .jstr "beta")]⟩],
        "q?"⟩ ∧
    RAGChain.run qCfg (fun _ => .ok [1, 2, 3]) (fun _ _ _ => .ok [])
        (fun prompt _ => .ok prompt) "q?" 5 (7/10) none =
      .ok ⟨RAGChain.ragPrompt "" "q?", [], "q?"⟩ := by
  constructor
  · exact C6_rag_context_and_sources.2.1 qCfg (fun _ => .ok [1, 2, 3])
      (fun _ _ _ => .ok [⟨"a", 9/10, [("text", .jstr "alpha")]⟩,
                         ⟨"b", 8/10, [("text", .jstr "beta")]⟩])
      (fun prompt _ => .ok prompt) "q?" 5 (7/10) none [1, 2, 3]
      [⟨"a", 9/10, [("text", .jstr "alpha")]⟩, ⟨"b", 8/10, [("text", .jstr "beta")]⟩]
      (RAGChain.ragPrompt "alpha\n\nbeta" "q?") rfl rfl rfl rfl
  · exact C6_rag_context_and_sources.2.2 qCfg (fun _ => .ok [1, 2, 3])
      (fun _ _ _ => .ok []) (fun prompt _ => .ok prompt) "q?" 5 (7/10) none
      [1, 2, 3] (RAGChain.ragPrompt "" "q?") rfl rfl rfl

/-- The points built by `store_batch`'s loop. -/
def batchPoints (vectors : List Vec) (metadata_list : List Metadata)
    (freshIds : ℕ → String) : List QPoint :=
  ((List.range (vectors.zip metadata_list).length).zip (vectors.zip metadata_list)).map
    (fun ip => (⟨freshIds ip.1, ip.2.1, ip.2.2⟩ : QPoint))

theorem qdrant_store_batch_eq (cfg : QdrantConfig) (upsertResp : Except PyErr Unit)
    (vectors : List Vec) (mlist : List Metadata) (fids : ℕ → String)
    (hlen : vectors.length = mlist.length) :
    QdrantVectorStore.store_batch cfg upsertResp vectors mlist fids =
      ([.upsert cfg.collection_name (batchPoints vectors mlist fids)],
        match upsertResp with
        | .ok _ => .ok ((batchPoints vectors mlist fids).map (·.id))
        | .error e => .error e) := by
  unfold QdrantVectorStore.store_batch batchPoints
  rw [if_neg (by simp [hlen])]

theorem batchPoints_map_id (vectors : List Vec) (mlist : List Metadata)
    (fids : ℕ → String) (hlen : vectors.length = mlist.length) :
    (batchPoints vectors mlist fids).map (·.id) =
      (List.range vectors.length).map fids := by
  unfold batchPoints
  rw [List.map_map]
  have h1 : ((List.range (vectors.zip mlist).length).zip (vectors.zip mlist)).map
      ((fun p : QPoint => p.id) ∘ (fun ip => (⟨fids ip.1, ip.2.1, ip.2.2⟩ : QPoint))) =
      ((List.range (vectors.zip mlist).length).zip (vectors.zip mlist)).map
        (fids ∘ Prod.fst) := rfl
  rw [h1, ← List.map_map, List.map_fst_zip _ _ (by rw [List.length_range]),
    List.length_zip, hlen, min_self]

theorem batchPoints_map_payload (vectors : List Vec) (mlist : List Metadata)
    (fids : ℕ → String) (hlen : vectors.length = mlist.length) :
    (batchPoints vectors mlist fids).map (·.payload) = mlist := by
  unfold batchPoints
  rw [List.map_map]
  have h1 : ((List.range (vectors.zip mlist).length).zip (vectors.zip mlist)).map
      ((fun p : QPoint => p.payload) ∘ (fun ip => (⟨fids ip.1, ip.2.1, ip.2.2⟩ : QPoint))) =
      ((List.range (vectors.zip mlist).length).zip (vectors.zip mlist)).map
        (Prod.snd ∘ Prod.snd) := rfl
  rw [h1, ← List.map_map, List.map_snd_zip _ _ (by rw [List.length_range]),
    List.map_snd_zip _ _ (by rw [hlen])]

theorem batchPoints_map_vector (vectors : List Vec) (mlist : List Metadata)
    (fids : ℕ → String) (hlen : vectors.length = mlist.length) :
    (batchPoints vectors mlist fids).map (·.vector) = vectors := by
  unfold batchPoints
  rw [List.map_map]
  have h1 : ((List.range (vectors.zip mlist).length).zip (vectors.zip mlist)).map
      ((fun p : QPoint => p.vector) ∘ (fun ip => (⟨fids ip.1, ip.2.1, ip.2.2⟩ : QPoint))) =
      ((List.range (vectors.zip mlist).length).zip (vectors.zip mlist)).map
        (Prod.fst ∘ Prod.snd) := rfl
  rw [h1, ← List.map_map, List.map_snd_zip _ _ (by rw [List.length_range]),
    List.map_fst_zip _ _ (by rw [hlen])]

/-- C7: `EmbeddingChain.run` embeds all document texts in one batch call in
"document" mode and stores each document's full dict (text included) as the
point payload, returning the generated ids in document order; an embedding
failure aborts before any store call, and a storage failure aborts with the
error — no success is claimed for any document. -/
theorem C7_ingest_workflow :
    (∀ (cfg : QdrantConfig) (remote : List JsonVal → String → Except PyErr (List Vec))
        (documents : List Metadata) (fids : ℕ → String) (texts : List JsonVal)
        (embs : List Vec),
      EmbeddingChain.extractTexts documents "text" = .ok texts →
      remote texts "document" = .ok embs →
      embs.length = documents.length →
      EmbeddingChain.run cfg remote (.ok ()) documents "text" fids =
        ([.upsert cfg.collection_name (batchPoints embs documents fids)],
          .ok ((List.range embs.length).map fids)) ∧
      (batchPoints embs documents fids).map (·.payload) = documents ∧
      (batchPoints embs documents fids).map (·.vector) = embs) ∧
    (∀ (cfg : QdrantConfig) (remote : List JsonVal → String → Except PyErr (List Vec))
        (upsertResp : Except PyErr Unit) (documents : List Metadata) (fids : ℕ → String)
        (texts : List JsonVal) (e : PyErr),
      EmbeddingChain.extractTexts documents "text" = .ok texts →
      remote texts "document" = .error e →
      EmbeddingChain.run cfg remote upsertResp documents "text" fids = ([], .error e)) ∧
    (∀ (cfg : QdrantConfig) (remote : List JsonVal → String → Except PyErr (List Vec))
        (documents : List Metadata) (fids : ℕ → String) (texts : List JsonVal)
        (embs : List Vec) (e : PyErr),
      EmbeddingChain.extractTexts documents "text" = .ok texts →
      remote texts "document" = .ok embs →
      embs.length = documents.length →
      (EmbeddingChain.run cfg remote (.error e) documents "text" fids).2 = .error e) := by
  refine ⟨?_, ?_, ?_⟩
  · intro cfg remote documents fids texts embs hT hR hlen
    refine ⟨?_, batchPoints_map_payload embs documents fids hlen,
      batchPoints_map_vector embs documents fids hlen⟩
    unfold EmbeddingChain.run VoyageClient.embed_batch
    simp only [hT, hR]
    rw [qdrant_store_batch_eq cfg (.ok ()) embs documents fids hlen,
      batchPoints_map_id embs documents fids hlen]
  · intro cfg remote upsertResp documents fids texts e hT hR
    unfold EmbeddingChain.run VoyageClient.embed_batch
    simp only [hT, hR]
  · intro cfg remote documents fids texts embs e hT hR hlen
    unfold EmbeddingChain.run VoyageClient.embed_batch
    simp only [hT, hR]
    rw [qdrant_store_batch_eq cfg (.error e) embs documents fids hlen]

/-- C7 witness: a concrete two-document ingest (texts "alpha" and "beta",
extra metadata fields) stored with full payloads and ids in document order,
plus concrete embedding-failure and storage-failure runs that abort. -/
theorem C7_ingest_workflow_witness :
    (EmbeddingChain.run qCfg (fun _ _ => .ok [[1, 0, 0], [0, 1, 0]]) (.ok ())
        [[("text", .jstr "alpha"), ("title", .jstr "A")],
         [("text", .jstr "beta"), ("title", .jstr "B")]]
        "text" (fun i => "id-" ++ toString i) =
      ([.upsert "embeddings" (batchPoints [[1, 0, 0], [0, 1, 0]]
          [[("text", .jstr "alpha"), ("title", .jstr "A")],
           [("text", .jstr "beta"), ("title", .jstr "B")]]
          (fun i => "id-" ++ toString i))],
        .ok ["id-0", "id-1"]) ∧
      (batchPoints [[1, 0, 0], [0, 1, 0]]
          [[("text", .jstr "alpha"), ("title", .jstr "A")],
           [("text", .jstr "beta"), ("title", .jstr "B")]]
          (fun i => "id-" ++ toString i)).map (·.payload) =
        [[("text", .jstr "alpha"), ("title", .jstr "A")],
         [("text", .jstr "beta"), ("title", .jstr "B")]]) ∧
    EmbeddingChain.run qCfg (fun _ _ => .error (.transportError "down")) (.ok ())
        [[("text", .jstr "alpha")]] "text" (fun _ => "id") =
      ([], .error (.transportError "down")) ∧
    (EmbeddingChain.run qCfg (fun _ _ => .ok [[1, 0, 0]])
        (.error (.transportError "down")) [[("text", .jstr "alpha")]] "text"
        (fun _ => "id")).2 = .error (.transportError "down") := by
  refine ⟨?_, ?_, ?_⟩
  · have h := C7_ingest_workflow.1 qCfg (fun _ _ => .ok [[1, 0, 0], [0, 1, 0]])
      [[("text", .jstr "alpha"), ("title", .jstr "A")],
       [("text", .jstr "beta"), ("title", .jstr "B")]]
      (fun i => "id-" ++ toString i)
      [.jstr "alpha", .jstr "beta"] [[1, 0, 0], [0, 1, 0]] rfl rfl rfl
    exact ⟨h.1, h.2.1⟩
  · exact C7_ingest_workflow.2.1 qCfg (fun _ _ => .error (.transportError "down"))
      (.ok ()) [[("text", .jstr "alpha")]] (fun _ => "id") [.jstr "alpha"]
      (.transportError "down") rfl rfl
  · exact C7_ingest_workflow.2.2 qCfg (fun _ _ => .ok [[1, 0, 0]])
      [[("text", .jstr "alpha")]] (fun _ => "id") [.jstr "alpha"] [[1, 0, 0]]
      (.transportError "down") rfl rfl rfl

/-- C8 counterexample: on a not-yet-provisioned Weaviate store, a `store_batch`
with mismatched list lengths (1 vector, 0 metadata dicts) still issues the
schema GET of lazy provisioning before raising the length-check `ValueError`
— it does not fail before issuing any network call. -/
theorem C8_counterexample :
    WeaviateVectorStore.store_batch wCfg ⟨false⟩ wEnvOk (.ok ⟨none, []⟩)
        [[1, 2, 3]] [] (fun _ => "p") =
      (⟨true⟩, [.getSchema], .error (.valueError lenErrorMsg)) ∧
    [WvCall.getSchema] ≠ ([] : List WvCall) := by
  exact ⟨rfl, by decide⟩

/-- C8 (amended): on a length mismatch the Qdrant `store_batch` fails before
issuing any network call (empty trace), and the Weaviate `store_batch` raises
the same `ValueError` before issuing any batch-write call — though its
implicit lazy provisioning may already have issued schema calls. -/
theorem C8_store_batch_length_check :
    (∀ (cfg : QdrantConfig) (upsertResp : Except PyErr Unit) (vectors : List Vec)
        (mlist : List Metadata) (fids : ℕ → String),
      vectors.length ≠ mlist.length →
      QdrantVectorStore.store_batch cfg upsertResp vectors mlist fids =
        ([], .error (.valueError lenErrorMsg))) ∧
    (∀ (cfg : WvConfig) (st st' : WvState) (env : WvEnsureEnv)
        (batchResp : Except PyErr WeaviateVectorStore.WvBatchResp) (tr : List WvCall)
        (vectors : List Vec) (mlist : List Metadata) (fids : ℕ → String),
      vectors.length ≠ mlist.length →
      WeaviateVectorStore.ensure_collection_once cfg st env = (st', tr, .ok ()) →
      WeaviateVectorStore.store_batch cfg st env batchResp vectors mlist fids =
        (st', tr, .error (.valueError lenErrorMsg)) ∧
      ∀ c ∈ tr, c = .getSchema ∨ c = .createClass cfg.class_name) := by
  constructor
  · intro cfg upsertResp vectors mlist fids hlen
    unfold QdrantVectorStore.store_batch
    rw [if_pos hlen]
  · intro cfg st st' env batchResp tr vectors mlist fids hlen hE
    constructor
    · unfold WeaviateVectorStore.store_batch
      rw [hE]
      simp only [if_pos hlen]
    · intro c hc
      have := wv_ensure_once_trace_mem cfg st env
      rw [hE] at this
      exact this c hc

/-- C8 witness: the amended theorem applied at a concrete 1-versus-0 length
mismatch in both backends (Weaviate on an already-provisioned store: empty
provisioning trace, so no call at all precedes the failure). -/
theorem C8_store_batch_length_check_witness :
    QdrantVectorStore.store_batch qCfg (.ok ()) [[1, 2, 3]] [] (fun _ => "p") =
      ([], .error (.valueError lenErrorMsg)) ∧
    WeaviateVectorStore.store_batch wCfg ⟨true⟩ wEnvOk (.ok ⟨none, []⟩)
        [[1, 2, 3]] [] (fun _ => "p") =
      (⟨true⟩, [], .error (.valueError lenErrorMsg)) := by
  constructor
  · exact C8_store_batch_length_check.1 qCfg (.ok ()) [[1, 2, 3]] [] (fun _ => "p")
      (by decide)
  · exact (C8_store_batch_length_check.2 wCfg ⟨true⟩ ⟨true⟩ wEnvOk (.ok ⟨none, []⟩) []
      [[1, 2, 3]] [] (fun _ => "p") (by decide) rfl).1

/-- C9 counterexample: a transport failure during the Weaviate delete is
swallowed — `delete_by_id` returns `False` instead of surfacing the error, so
transient backend failures are not surfaced to the caller. -/
theorem C9_counterexample :
    WeaviateVectorStore.delete_by_id wCfg ⟨true⟩ wEnvOk
        (.error (.transportError "connection refused")) "pid" =
      (⟨true⟩, [.deleteObject "pid"], .ok false) := by
  rfl

/-- C9 (amended): the Weaviate `delete_by_id` returns `True` on a 200/204
response and `False` (not an error) on 404, but it swallows every failure —
transport errors, error statuses, and even provisioning failures all return
`False` rather than surfacing; the Qdrant `delete_by_id` returns `True`
whenever the backend delete call succeeds (it does not report whether the id
existed) and likewise swallows failures as `False`. -/
theorem C9_delete_semantics :
    (∀ (cfg : WvConfig) (st st' : WvState) (env : WvEnsureEnv) (tr : List WvCall)
        (pid : String) (status : ℕ),
      WeaviateVectorStore.ensure_collection_once cfg st env = (st', tr, .ok ()) →
      (WeaviateVectorStore.delete_by_id cfg st env (.ok status) pid =
        (st', tr ++ [.deleteObject pid],
          .ok (status = 200 ∨ status = 204 : Bool)))) ∧
    (∀ (cfg : WvConfig) (st st' : WvState) (env : WvEnsureEnv) (tr : List WvCall)
        (pid : String) (e : PyErr),
      WeaviateVectorStore.ensure_collection_once cfg st env = (st', tr, .ok ()) →
      WeaviateVectorStore.delete_by_id cfg st env (.error e) pid =
        (st', tr ++ [.deleteObject pid], .ok false)) ∧
    (∀ (cfg : WvConfig) (st st' : WvState) (env : WvEnsureEnv) (tr : List WvCall)
        (deleteResp : Except PyErr ℕ) (pid : String) (e : PyErr),
      WeaviateVectorStore.ensure_collection_once cfg st env = (st', tr, .error e) →
      WeaviateVectorStore.delete_by_id cfg st env deleteResp pid = (st', tr, .ok false)) ∧
    (∀ (cfg : QdrantConfig) (pid : String),
      QdrantVectorStore.delete_by_id cfg (.ok ()) pid =
        ([.delete cfg.collection_name pid], .ok true)) ∧
    (∀ (cfg : QdrantConfig) (pid : String) (e : PyErr),
      QdrantVectorStore.delete_by_id cfg (.error e) pid =
        ([.delete cfg.collection_name pid], .ok false)) := by
  refine ⟨?_, ?_, ?_, ?_, ?_⟩
  · intro cfg st st' env tr pid status hE
    unfold WeaviateVectorStore.delete_by_id
    rw [hE]
    by_cases h2 : status = 200 ∨ status = 204
    · simp [h2]
    · by_cases h4 : status = 404
      · simp [h2, h4]
      · simp [h2, h4]
  · intro cfg st st' env tr pid e hE
    unfold WeaviateVectorStore.delete_by_id
    rw [hE]
  · intro cfg st st' env tr deleteResp pid e hE
    unfold WeaviateVectorStore.delete_by_id
    rw [hE]
  · intro cfg pid
    rfl
  · intro cfg pid e
    rfl

/-- C9 witness: the amended theorem applied at concrete inputs: a 204 delete
returns true, a 404 returns false without error, a failed provisioning run is
swallowed as false, and the Qdrant delete of an arbitrary id returns true on
backend success and false on backend failure. -/
theorem C9_delete_semantics_witness :
    WeaviateVectorStore.delete_by_id wCfg ⟨true⟩ wEnvOk (.ok 204) "pid" =
      (⟨true⟩, [.deleteObject "pid"], .ok true) ∧
    WeaviateVectorStore.delete_by_id wCfg ⟨true⟩ wEnvOk (.ok 404) "pid" =
      (⟨true⟩, [.deleteObject "pid"], .ok false) ∧
    WeaviateVectorStore.delete_by_id wCfg ⟨false⟩
        ⟨.error (.transportError "down"), .ok ()⟩ (.ok 204) "pid" =
      (⟨false⟩, [.getSchema], .ok false) ∧
    QdrantVectorStore.delete_by_id qCfg (.ok ()) "absent-id" =
      ([.delete "embeddings" "absent-id"], .ok true) ∧
    QdrantVectorStore.delete_by_id qCfg (.error (.transportError "down")) "pid" =
      ([.delete "embeddings" "pid"], .ok false) := by
  refine ⟨?_, ?_, ?_, ?_, ?_⟩
  · exact C9_delete_semantics.1 wCfg ⟨true⟩ ⟨true⟩ wEnvOk [] "pid" 204 rfl
  · exact C9_delete_semantics.1 wCfg ⟨true⟩ ⟨true⟩ wEnvOk [] "pid" 404 rfl
  · exact C9_delete_semantics.2.2.1 wCfg ⟨false⟩ ⟨false⟩
      ⟨.error (.transportError "down"), .ok ()⟩ [.getSchema] (.ok 204) "pid"
      (.transportError "down") rfl
  · exact C9_delete_semantics.2.2.2.1 qCfg "absent-id"
  · exact C9_delete_semantics.2.2.2.2 qCfg "pid" (.transportError "down")
